import Mathlib

/-!
Verification of the IK solver components of `Source/Urho3D/IK/IKSolverComponent.cpp`.

The geometric state is embedded over the real numbers: `Vec3` mirrors
`Urho3D::Vector3`, `Quat` mirrors `Urho3D::Quaternion`.  Urho3D's scalar math
(`Sin`, `Cos`, `Asin`, `Acos`) works in degrees and clamps the arguments of the
inverse functions to `[-1, 1]`; the definitions `sinDeg`, `cosDeg`, `asinDeg`,
`acosDeg` reproduce that.
-/

open Real

/-- World-space vector, mirroring `Urho3D::Vector3`. -/
@[ext]
structure Vec3 where
  x : ℝ
  y : ℝ
  z : ℝ

instance : Add Vec3 := ⟨fun a b => ⟨a.x + b.x, a.y + b.y, a.z + b.z⟩⟩

instance : Sub Vec3 := ⟨fun a b => ⟨a.x - b.x, a.y - b.y, a.z - b.z⟩⟩

instance : Neg Vec3 := ⟨fun a => ⟨-a.x, -a.y, -a.z⟩⟩

instance : SMul ℝ Vec3 := ⟨fun c a => ⟨c * a.x, c * a.y, c * a.z⟩⟩

instance : Zero Vec3 := ⟨⟨0, 0, 0⟩⟩

noncomputable instance : DecidableEq Vec3 := Classical.decEq _

/-- Dot product of two vectors. -/
def Vec3.dot (a b : Vec3) : ℝ := a.x * b.x + a.y * b.y + a.z * b.z

/-- Cross product of two vectors. -/
def Vec3.cross (a b : Vec3) : Vec3 :=
  ⟨a.y * b.z - a.z * b.y, a.z * b.x - a.x * b.z, a.x * b.y - a.y * b.x⟩

/-- Squared Euclidean length. -/
def Vec3.normSq (a : Vec3) : ℝ := a.x * a.x + a.y * a.y + a.z * a.z

/-- Euclidean length, `Vector3::Length`. -/
noncomputable def Vec3.norm (a : Vec3) : ℝ := Real.sqrt a.normSq

/-- Unit vector in the direction of `a`, `Vector3::Normalized`; the zero vector
is returned unchanged (Urho3D returns the vector unchanged when the squared
length is degenerate). -/
noncomputable def Vec3.normalize (a : Vec3) : Vec3 :=
  if a = 0 then a else (1 / a.norm) • a


/-- World-space rotation, mirroring `Urho3D::Quaternion` (w is the scalar part). -/
@[ext]
structure Quat where
  w : ℝ
  x : ℝ
  y : ℝ
  z : ℝ

noncomputable instance : DecidableEq Quat := Classical.decEq _

/-- The identity quaternion `Quaternion::IDENTITY`. -/
def Quat.one : Quat := ⟨1, 0, 0, 0⟩

/-- The zero quaternion `Quaternion::ZERO`, used by the identity solver as the
uninitialized sentinel for the rotation offset. -/
def Quat.zero : Quat := ⟨0, 0, 0, 0⟩

/-- Hamilton product, `Quaternion::operator*`. -/
def Quat.mul (a b : Quat) : Quat :=
  ⟨a.w * b.w - a.x * b.x - a.y * b.y - a.z * b.z,
   a.w * b.x + a.x * b.w + a.y * b.z - a.z * b.y,
   a.w * b.y - a.x * b.z + a.y * b.w + a.z * b.x,
   a.w * b.z + a.x * b.y - a.y * b.x + a.z * b.w⟩

/-- Conjugate quaternion, `Quaternion::Conjugate`. -/
def Quat.conj (a : Quat) : Quat := ⟨a.w, -a.x, -a.y, -a.z⟩

/-- Squared norm, `Quaternion::LengthSquared`. -/
def Quat.normSq (a : Quat) : ℝ := a.w * a.w + a.x * a.x + a.y * a.y + a.z * a.z

/-- Scalar multiple of a quaternion. -/
def Quat.smul (c : ℝ) (a : Quat) : Quat := ⟨c * a.w, c * a.x, c * a.y, c * a.z⟩

/-- Normalized quaternion, `Quaternion::Normalized`; degenerate quaternions are
returned unchanged. -/
noncomputable def Quat.normalize (a : Quat) : Quat :=
  if a.normSq = 0 then a else Quat.smul (1 / Real.sqrt a.normSq) a

/-- Inverse quaternion, `Quaternion::Inverse` (conjugate scaled by the inverse
squared length; degenerate input yields the identity). -/
noncomputable def Quat.inverse (a : Quat) : Quat :=
  if a.normSq = 0 then Quat.one else Quat.smul (1 / a.normSq) a.conj

/-- Vector part of a quaternion. -/
def Quat.vec (a : Quat) : Vec3 := ⟨a.x, a.y, a.z⟩

/-- Rotation of a vector by a quaternion, `Quaternion::operator*(Vector3)`:
`v + 2 * (w * (q̄ × v) + q̄ × (q̄ × v))` with `q̄` the vector part (exact for
unit quaternions, as in Urho3D). -/
def Quat.rotate (q : Quat) (v : Vec3) : Vec3 :=
  v + (2 : ℝ) • (q.w • Vec3.cross q.vec v + Vec3.cross q.vec (Vec3.cross q.vec v))


/-!
Degree-based scalar math of `Urho3D/Math/MathDefs.h`: trigonometric functions
take and return degrees, and `Asin`/`Acos` clamp their argument to `[-1, 1]`.
-/

/-- Sine of an angle in degrees, `Urho3D::Sin`. -/
noncomputable def sinDeg (a : ℝ) : ℝ := Real.sin (a * (π / 180))

/-- Cosine of an angle in degrees, `Urho3D::Cos`. -/
noncomputable def cosDeg (a : ℝ) : ℝ := Real.cos (a * (π / 180))

/-- Arcsine in degrees with clamped argument, `Urho3D::Asin`. -/
noncomputable def asinDeg (x : ℝ) : ℝ := Real.arcsin (max (-1) (min 1 x)) * (180 / π)

/-- Arccosine in degrees with clamped argument, `Urho3D::Acos`. -/
noncomputable def acosDeg (x : ℝ) : ℝ := Real.arccos (max (-1) (min 1 x)) * (180 / π)


/-!
The pure triangle-solving helpers at the top of `IKSolverComponent.cpp`
(anonymous namespace, lines 39-102).  These are fully present in the sources.
-/

/-- Given two sides and the angle opposite to the first side, calculate the
smallest angle opposite to the second side (law of sines); `none` when no
valid triangle exists.  Source lines 41-49. -/
noncomputable def SolveAmbiguousTriangle (sideAB sideBC angleACB : ℝ) : Option ℝ :=
  if 1 < sideBC * sinDeg angleACB / sideAB then none
  else some (asinDeg (sideBC * sinDeg angleACB / sideAB))

/-- Law-of-cosines angle of a triangle from its three sides.
Source lines 51-54. -/
noncomputable def GetTriangleAngle (sideAB sideBC sideAC : ℝ) : ℝ :=
  acosDeg ((sideAB * sideAB + sideBC * sideBC - sideAC * sideAC) / (2 * sideAB * sideBC))

/-- Maximum reach of a two-segment chain with segment lengths `a`, `b` at the
joint angle `maxAngle`.  Source lines 56-61 (the chain's cached lengths are
passed explicitly since `IKTrigonometricChain` only stores them). -/
noncomputable def GetMaxDistance (a b maxAngle : ℝ) : ℝ :=
  Real.sqrt (a * a + b * b - 2 * a * b * cosDeg maxAngle)

/-- Distance from thigh to heel implied by the ambiguous thigh-toe-heel
triangle, falling back to full extension clamped by `maxDistance` when the
triangle has no solution.  Source lines 69-89. -/
noncomputable def GetThighToHeelDistance
    (thighToToeDistance toeToHeelDistance heelAngle maxDistance : ℝ) : ℝ :=
  match SolveAmbiguousTriangle thighToToeDistance toeToHeelDistance heelAngle with
  | none => min (thighToToeDistance + toeToHeelDistance) maxDistance
  | some thighAngle =>
    min (thighToToeDistance * sinDeg (180 - heelAngle - thighAngle) / sinDeg heelAngle)
      maxDistance

/-!
Quaternion constructors used by the solvers.  These live in
`Urho3D/Math/Quaternion.h/.cpp`, which is not part of the sources; they are
modelled from the spec where referenced.
-/

/-- Modelled from the spec: `Quaternion::FromAngleAxis` (angle in degrees) is
not part of the sources; the spec's incremental rotations about an axis are the
standard half-angle quaternion about the normalized axis. -/
noncomputable def quatFromAngleAxisDeg (angle : ℝ) (axis : Vec3) : Quat :=
  ⟨cosDeg (angle / 2),
   sinDeg (angle / 2) * axis.normalize.x,
   sinDeg (angle / 2) * axis.normalize.y,
   sinDeg (angle / 2) * axis.normalize.z⟩

/-- Half-angle quaternion for an angle in radians about the normalized axis. -/
noncomputable def quatFromAngleAxisRad (angle : ℝ) (axis : Vec3) : Quat :=
  ⟨Real.cos (angle / 2),
   Real.sin (angle / 2) * axis.normalize.x,
   Real.sin (angle / 2) * axis.normalize.y,
   Real.sin (angle / 2) * axis.normalize.z⟩

/-- Modelled from the spec: `Quaternion(const Vector3& start, const Vector3& end)`
(shortest-arc rotation between two directions) is not part of the sources; for
non-antiparallel directions it is the standard half-vector construction
`(sqrt(2 * (1 + d)) / 2, cross / sqrt(2 * (1 + d)))` over the normalized
inputs. -/
noncomputable def fromRotationTo (f t : Vec3) : Quat :=
  ⟨Real.sqrt ((1 + Vec3.dot f.normalize t.normalize) * 2) / 2,
   (Vec3.cross f.normalize t.normalize).x / Real.sqrt ((1 + Vec3.dot f.normalize t.normalize) * 2),
   (Vec3.cross f.normalize t.normalize).y / Real.sqrt ((1 + Vec3.dot f.normalize t.normalize) * 2),
   (Vec3.cross f.normalize t.normalize).z / Real.sqrt ((1 + Vec3.dot f.normalize t.normalize) * 2)⟩

/-- Modelled from the spec: `Quaternion::Slerp` from the identity is not part
of the sources; spherical interpolation from the identity traverses the
fraction `t` of the rotation's angle about its axis. -/
noncomputable def slerpIdentity (q : Quat) (t : ℝ) : Quat :=
  quatFromAngleAxisRad (t * (2 * Real.arccos q.w)) q.vec

/-- Modelled from the spec: `Quaternion::ToSwingTwist` is not part of the
sources; the twist is the normalized projection of the rotation onto the twist
axis and the swing is the residual rotation (spec 4.8 step 2). -/
noncomputable def toSwingTwist (q : Quat) (axis : Vec3) : Quat × Quat :=
  let d := Vec3.dot q.vec axis
  let twist := Quat.normalize ⟨q.w, d * axis.x, d * axis.y, d * axis.z⟩
  (q.mul twist.conj, twist)

/-- Modelled from the spec: `Vector3::ReNormalized(minLength, maxLength)`
(direction preserved, length clamped) is not part of the sources. -/
noncomputable def reNormalized (v : Vec3) (minLength maxLength : ℝ) : Vec3 :=
  min maxLength (max minLength v.norm) • v.normalize

/-- Spherical interpolation of two direction vectors, source lines 63-67:
rotate `from` by the slerp between the identity and the shortest-arc rotation
taking `from` to `to`. -/
noncomputable def InterpolateDirection (f t : Vec3) (tt : ℝ) : Vec3 :=
  (slerpIdentity (fromRotationTo f t) tt).rotate f

/-- Heel-to-toe offset vector for the straight-leg case, source lines 91-102. -/
noncomputable def GetToeToHeel (thighPosition toePosition : Vec3)
    (toeToHeelDistance heelAngle maxDistance : ℝ) (bendNormal : Vec3) : Vec3 :=
  let thighToToeDistance := (toePosition - thighPosition).norm
  let thighToHeelDistance :=
    GetThighToHeelDistance thighToToeDistance toeToHeelDistance heelAngle maxDistance
  let toeAngle := GetTriangleAngle thighToToeDistance toeToHeelDistance thighToHeelDistance
  let toeToThigh := (thighPosition - toePosition).normalize
  let rotation := quatFromAngleAxisDeg toeAngle bendNormal
  toeToHeelDistance • (rotation.rotate toeToThigh).normalize

/-!
The two-bone trigonometric chain solve.  `IKTrigonometricChain::Solve` lives in
`Urho3D/IK/IKSolver.cpp`, which is not part of the sources; it is modelled from
spec section 4.4 (positions of the middle and end nodes; the begin node's
position is left unchanged by the solve).
-/

/-- Modelled from the spec: section 4.4 two-bone analytic solve.  Returns the
new positions of the middle and the end node for a chain with begin position
`beginPos`, segment lengths `l1`, `l2`, target position `targetPos`,
bend-direction hint `bendDir` and middle-joint angle limits in degrees.  The
required begin-to-end distance is clamped to the reachable range implied by the
angle limits, the begin angle follows the law of cosines, and the bend happens
in the plane spanned by the begin-to-target direction and the bend-direction
hint. -/
noncomputable def specTrigSolvePositions (beginPos : Vec3) (l1 l2 : ℝ)
    (targetPos bendDir : Vec3) (minAngle maxAngle : ℝ) : Vec3 × Vec3 :=
  let maxReach := Real.sqrt (l1 * l1 + l2 * l2 - 2 * l1 * l2 * cosDeg maxAngle)
  let minReach := Real.sqrt (l1 * l1 + l2 * l2 - 2 * l1 * l2 * cosDeg minAngle)
  let dist := min maxReach (max minReach (targetPos - beginPos).norm)
  let dir := (targetPos - beginPos).normalize
  let endPos := beginPos + dist • dir
  let beginAngle := acosDeg ((l1 * l1 + dist * dist - l2 * l2) / (2 * l1 * dist))
  let perp := (bendDir - Vec3.dot bendDir dir • dir).normalize
  let middlePos := beginPos + l1 • (cosDeg beginAngle • dir + sinDeg beginAngle • perp)
  (middlePos, endPos)

/-!
Per-bone solving state and the host-driven solve protocol.  The `IKNode`
methods live in `Urho3D/IK/IKSolver.h`, not in the sources; the flag handling
follows the spec (section 3: dirty flags are cleared at the start of each
solve and set only when a solver mutates the attribute).
-/

/-- World transform of a scene node, the part of the scene-graph interface the
solver reads and writes (`GetWorldPosition`/`SetWorldPosition` and the rotation
counterparts). -/
@[ext]
structure Transform where
  position : Vec3
  rotation : Quat

/-- Per-bone solving state, mirroring `Urho3D::IKNode`. -/
@[ext]
structure IKNode where
  position : Vec3
  rotation : Quat
  previousPosition : Vec3
  previousRotation : Quat
  originalPosition : Vec3
  originalRotation : Quat
  positionDirty : Bool
  rotationDirty : Bool

/-- Modelled from the spec: `IKNode::StorePreviousTransform` is not part of the
sources; it snapshots the current transform as the previous-frame transform and
clears the dirty flags at the start of each solve (spec sections 3 and 4.2). -/
def IKNode.storePreviousTransform (n : IKNode) : IKNode :=
  { n with previousPosition := n.position, previousRotation := n.rotation,
           positionDirty := false, rotationDirty := false }

/-- Modelled from the spec: `IKNode::ResetOriginalTransform` is not part of the
sources; spec section 4.8 step 4 resets a node to its rest pose before the
shoulder rotation is applied. -/
def IKNode.resetOriginalTransform (n : IKNode) : IKNode :=
  { n with position := n.originalPosition, rotation := n.originalRotation }

/-- Modelled from the spec: `IKNode::RotateAround` is not part of the sources;
it rotates the node's transform rigidly about a pivot point and marks both
attributes dirty. -/
def IKNode.rotateAround (n : IKNode) (point : Vec3) (q : Quat) : IKNode :=
  { n with position := point + q.rotate (n.position - point),
           rotation := q.mul n.rotation,
           positionDirty := true, rotationDirty := true }

/-- Marks the position changed by a solver, `IKNode::MarkPositionDirty`. -/
def IKNode.markPositionDirty (n : IKNode) : IKNode := { n with positionDirty := true }

/-- Marks the rotation changed by a solver, `IKNode::MarkRotationDirty`. -/
def IKNode.markRotationDirty (n : IKNode) : IKNode := { n with rotationDirty := true }

/-- Step 1 of `IKSolverComponent::Solve` for one owned node (source lines
147-152): copy the scene world transform into the solver node and snapshot it
as the previous transform. -/
def pullNode (t : Transform) (n : IKNode) : IKNode :=
  IKNode.storePreviousTransform { n with position := t.position, rotation := t.rotation }

/-- `IKSolverComponent::Solve` (source lines 145-163) over an abstract scene:
`solverNodes` lists the scene nodes owned by the component, `cache` is the
shared node cache and `solveInternal` the component-specific solve algorithm.
Returns the updated scene and the post-solve cache.  Positions are written back
to the scene exactly for nodes whose `positionDirty` flag is set after
`SolveInternal`, rotations for those whose `rotationDirty` flag is set. -/
def solveComponent (solverNodes : List Nat)
    (solveInternal : (Nat → IKNode) → (Nat → IKNode))
    (scene : Nat → Transform) (cache : Nat → IKNode) :
    (Nat → Transform) × (Nat → IKNode) :=
  let pulled := fun n => if n ∈ solverNodes then pullNode (scene n) (cache n) else cache n
  let solved := solveInternal pulled
  let sceneAfter := fun n =>
    if n ∈ solverNodes then
      { position := if (solved n).positionDirty then (solved n).position
                    else (scene n).position,
        rotation := if (solved n).rotationDirty then (solved n).rotation
                    else (scene n).rotation }
    else scene n
  (sceneAfter, solved)

/-- The cache state right after `SolveInternal` inside `solveComponent`. -/
def solveComponentCacheAfter (solverNodes : List Nat)
    (solveInternal : (Nat → IKNode) → (Nat → IKNode))
    (scene : Nat → Transform) (cache : Nat → IKNode) : Nat → IKNode :=
  solveInternal
    (fun n => if n ∈ solverNodes then pullNode (scene n) (cache n) else cache n)

/-!
Initialization protocol shared by all six solver component types
(`IKSolverComponent::Initialize` source lines 134-138, `AddSolverNode` lines
171-184, `AddCheckedNode` lines 186-197, and the per-type `InitializeNodes`:
identity lines 309-320, trigonometric lines 390-410, chain lines 216-234, leg
lines 492-517, spine lines 646-664, arm lines 732-757).  Every type resolves
the target name first through `AddCheckedNode` (which does not register a
solver node), then its bone names in order through `AddSolverNode` (which
appends to `solverNodes_`), and installs the chain only after every name has
resolved.  Bone names are abstracted to naturals, the hierarchy lookup
`Node::GetChild(name, true)` to a partial map. -/
structure SolverBaseState where
  solverNodes : List Nat
  chain : List Nat

/-- The `AddSolverNode` loop of the per-type `InitializeNodes` over the bone
name list.  `acc` is the chain being built locally; on the first unresolved
name the loop fails, leaving the previously installed chain untouched (the
already-resolved bones remain appended to `solverNodes`, matching the source's
mutation order); on success the local chain is installed. -/
def addSolverNodesLoop (resolve : Nat → Option Nat) :
    List Nat → SolverBaseState → List Nat → Bool × SolverBaseState
  | [], st, acc => (true, { st with chain := acc })
  | name :: rest, st, acc =>
    match resolve name with
    | none => (false, st)
    | some n =>
      addSolverNodesLoop resolve rest
        { st with solverNodes := st.solverNodes ++ [n] } (acc ++ [n])

/-- The shared shape of the per-type `InitializeNodes`: resolve the target
first (failing without touching the state), then resolve the bones. -/
def initializeNodesGeneric (resolve : Nat → Option Nat) (targetName : Nat)
    (boneNames : List Nat) (st : SolverBaseState) : Bool × SolverBaseState :=
  match resolve targetName with
  | none => (false, st)
  | some _ => addSolverNodesLoop resolve boneNames st []

/-- `IKSolverComponent::Initialize` (source lines 134-138): clear the solver
node list, then run the component's `InitializeNodes`. -/
def initializeComponent (resolve : Nat → Option Nat) (targetName : Nat)
    (boneNames : List Nat) (st : SolverBaseState) : Bool × SolverBaseState :=
  initializeNodesGeneric resolve targetName boneNames { st with solverNodes := [] }

/-!
The identity solver (`IKIdentitySolver`, source lines 254-335).
-/

/-- `IKIdentitySolver::UpdateRotationOffset` (source lines 296-301): recompute
the rotation offset from the component node's world rotation and the scene
bone's world rotation; when the bone name does not resolve the offset is left
unchanged. -/
noncomputable def updateRotationOffset (nodeWorldRotation : Quat)
    (boneWorldRotation : Option Quat) (old : Quat) : Quat :=
  match boneWorldRotation with
  | some r => (Quat.inverse nodeWorldRotation).mul r
  | none => old

/-- `IKIdentitySolver::EnsureInitialized` (source lines 303-307): recompute the
offset only when it still equals the zero-quaternion sentinel. -/
noncomputable def ensureInitializedIdentity (nodeWorldRotation : Quat)
    (boneWorldRotation : Option Quat) (old : Quat) : Quat :=
  if old = Quat.zero then updateRotationOffset nodeWorldRotation boneWorldRotation old
  else old

/-- `IKIdentitySolver::SolveInternal` (source lines 326-335): ensure the offset
is initialized, copy the target world position onto the bone, compose the
target world rotation with the offset, and mark both attributes dirty.
Returns the (possibly recomputed) offset and the new bone state. -/
noncomputable def identitySolveInternal (rotationOffset : Quat) (bone : IKNode)
    (targetPosition : Vec3) (targetRotation : Quat) (nodeWorldRotation : Quat)
    (boneWorldRotation : Option Quat) : Quat × IKNode :=
  let offset := ensureInitializedIdentity nodeWorldRotation boneWorldRotation rotationOffset
  let bone1 : IKNode :=
    { bone with position := targetPosition, rotation := targetRotation.mul offset }
  (offset, bone1.markPositionDirty.markRotationDirty)

/-- One full `Solve` call of the identity solver on the scene (pull, solve,
write back; source lines 145-163 combined with 326-335): both dirty flags are
set by the internal solve, so both attributes are written back.  The component
node's world rotation is external to the solver.  `UpdateRotationOffset` reads
the scene bone's world rotation, which at that point equals the pulled value.
Returns the persisted rotation offset and the bone's new scene transform. -/
noncomputable def identitySolveOnScene (rotationOffset : Quat)
    (boneScene targetScene : Transform) (nodeWorldRotation : Quat) :
    Quat × Transform :=
  let r := identitySolveInternal rotationOffset
    (pullNode boneScene ⟨boneScene.position, boneScene.rotation, boneScene.position,
      boneScene.rotation, boneScene.position, boneScene.rotation, false, false⟩)
    targetScene.position targetScene.rotation nodeWorldRotation
    (some boneScene.rotation)
  (r.1, ⟨r.2.position, r.2.rotation⟩)

/-!
The trigonometric solver and the arm solver's final chain solve.
-/

/-- `IKTrigonometrySolver::SolveInternal` (source lines 417-421): the chain is
solved toward the target with the bend direction rotated by the component
node's world rotation (`node_->GetWorldRotation() * bendDirection_`).  Only the
middle/end positions of the chain solve are modelled (the begin position is
unchanged and the rotations are a deterministic function of the same
arguments). -/
noncomputable def trigSolverSolveInternal (beginPos : Vec3) (l1 l2 : ℝ)
    (targetPos : Vec3) (nodeWorldRotation : Quat) (bendDirection : Vec3)
    (minAngle maxAngle : ℝ) : Vec3 × Vec3 :=
  specTrigSolvePositions beginPos l1 l2 targetPos
    (nodeWorldRotation.rotate bendDirection) minAngle maxAngle

/-- Step 5 of `IKArmSolver::SolveInternal` (source line 784): the arm chain is
solved toward the hand target with the raw configured bend direction
(`armChain_.Solve(handTargetPosition, bendDirection_, ...)`), without the world
rotation applied.  The component node world rotation parameter is accepted for
comparison with the trigonometric solver but unused by the code. -/
noncomputable def armSolveStepFive (beginPos : Vec3) (l1 l2 : ℝ)
    (targetPos : Vec3) (_nodeWorldRotation : Quat) (bendDirection : Vec3)
    (minAngle maxAngle : ℝ) : Vec3 × Vec3 :=
  specTrigSolvePositions beginPos l1 l2 targetPos bendDirection minAngle maxAngle

/-!
The leg solver (`IKLegSolver`, source lines 423-605).
-/

/-- `IKLegSolver::CalculateFootDirectionStraight` (source lines 553-564): the
bend normal is the cross product of the thigh-to-toe vector and the current
bend direction, and the heel offset comes from `GetToeToHeel` with the reach
bounded by `GetMaxDistance(legChain_, maxKneeAngle_)`. -/
noncomputable def calculateFootDirectionStraight (thighPosition toeTargetPosition : Vec3)
    (footLength minHeelAngle : ℝ) (l1 l2 maxKneeAngle : ℝ)
    (currentBendDirection : Vec3) : Vec3 :=
  let thighToToe := toeTargetPosition - thighPosition
  let bendNormal := Vec3.cross thighToToe currentBendDirection
  GetToeToHeel thighPosition toeTargetPosition footLength minHeelAngle
    (GetMaxDistance l1 l2 maxKneeAngle) bendNormal

/-- `IKLegSolver::CalculateFootDirectionBent` (source lines 566-574): solve the
two-bone chain of lengths `l1` and `l2 + footLength` toward the toe target and
scale the normalized middle-to-end direction by the foot length. -/
noncomputable def calculateFootDirectionBent (thighPosition toeTargetPosition : Vec3)
    (footLength : ℝ) (l1 l2 : ℝ) (currentBendDirection : Vec3)
    (minKneeAngle maxKneeAngle : ℝ) : Vec3 :=
  let p := specTrigSolvePositions thighPosition l1 (l2 + footLength) toeTargetPosition
    currentBendDirection minKneeAngle maxKneeAngle
  footLength • (p.1 - p.2).normalize

/-- The blended toe-to-heel offset of `IKLegSolver::SolveInternal` (source
lines 594-597). -/
noncomputable def legToeToHeelBlended (thighPosition toeTargetPosition : Vec3)
    (footLength minHeelAngle : ℝ) (l1 l2 minKneeAngle maxKneeAngle : ℝ)
    (currentBendDirection : Vec3) (bendWeight : ℝ) : Vec3 :=
  InterpolateDirection
    (calculateFootDirectionStraight thighPosition toeTargetPosition footLength
      minHeelAngle l1 l2 maxKneeAngle currentBendDirection)
    (calculateFootDirectionBent thighPosition toeTargetPosition footLength l1 l2
      currentBendDirection minKneeAngle maxKneeAngle)
    bendWeight

/-- The toe node position written by `IKLegSolver::SolveInternal` (source lines
602-603): the solved heel position minus the blended toe-to-heel offset.  The
heel position is whatever `legChain_.Solve` produced; the property below holds
for every value of it. -/
def legToePosition (heelSolvedPosition toeToHeel : Vec3) : Vec3 :=
  heelSolvedPosition - toeToHeel

/-!
The arm solver (`IKArmSolver`, source lines 676-813).
-/

/-- The two solver nodes of an `IKNodeSegment` (shoulder-to-arm). -/
@[ext]
structure IKSegmentNodes where
  beginNode : IKNode
  endNode : IKNode

/-- `IKArmSolver::RotateShoulder` (source lines 787-800): remember the shoulder
position and its positional offset from rest pose, reset both segment nodes to
rest pose, re-apply the offset, and rotate both nodes rigidly about the
remembered shoulder position. -/
def rotateShoulder (seg : IKSegmentNodes) (rotation : Quat) : IKSegmentNodes :=
  let shoulderPosition := seg.beginNode.position
  let shoulderOffset := shoulderPosition - seg.beginNode.originalPosition
  let b1 := seg.beginNode.resetOriginalTransform
  let e1 := seg.endNode.resetOriginalTransform
  let b2 : IKNode := { b1 with position := b1.position + shoulderOffset }
  let e2 : IKNode := { e1 with position := e1.position + shoulderOffset }
  ⟨b2.rotateAround shoulderPosition rotation, e2.rotateAround shoulderPosition rotation⟩

/-- `IKArmSolver::CalculateMaxShoulderRotation` (source lines 802-813): the
rotation from the current shoulder-to-arm vector to the direction toward the
hand target clamped to the shoulder segment length.  Note that
`originalShoulderToArm` is computed from the nodes' current positions, not
their rest-pose positions. -/
noncomputable def calculateMaxShoulderRotation (seg : IKSegmentNodes)
    (handTargetPosition : Vec3) (segmentLength : ℝ) : Quat :=
  let shoulderPosition := seg.beginNode.position
  let shoulderToArmMax :=
    reNormalized (handTargetPosition - shoulderPosition) segmentLength segmentLength
  let armTargetPosition := shoulderPosition + shoulderToArmMax
  let originalShoulderToArm := seg.endNode.position - seg.beginNode.position
  let maxShoulderToArm := armTargetPosition - shoulderPosition
  fromRotationTo originalShoulderToArm maxShoulderToArm

/-- The shoulder stage of `IKArmSolver::SolveInternal` (source lines 776-782):
compute the maximal shoulder rotation, split it into swing and twist around the
up direction, blend each toward the identity by the configured weights
(`shoulderWeight_.y_` for swing, `shoulderWeight_.x_` for twist) and apply the
blended rotation to the shoulder segment. -/
noncomputable def armSolveShoulderStage (seg : IKSegmentNodes)
    (handTargetPosition upDirection : Vec3) (segmentLength wx wy : ℝ) :
    IKSegmentNodes :=
  let maxShoulderRotation := calculateMaxShoulderRotation seg handTargetPosition segmentLength
  let st := toSwingTwist maxShoulderRotation upDirection
  let shoulderRotation := (slerpIdentity st.1 wy).mul (slerpIdentity st.2 wx)
  rotateShoulder seg shoulderRotation

/-- A fresh solver node at a given position with the given rest position (unit
rest rotation, clean flags), as pulled from the scene at the start of a solve. -/
def mkArmNode (p orig : Vec3) : IKNode := ⟨p, Quat.one, p, Quat.one, orig, Quat.one, false, false⟩

/-- The frame-to-frame evolution of the arm bone's position under repeated
`IKArmSolver::Solve` calls in a fixed scenario: shoulder bone resting at the
origin, arm bone resting at `(1,0,0)`, shoulder segment length `1`, hand target
at `(0,5,0)`, up direction `(0,0,1)`, both shoulder weights `1/2`.  The
write-back/pull round trip hands the shoulder-stage output position of the arm
bone to the next call unchanged (the arm chain solve moves only the chain's
middle and end nodes, and the scene is otherwise untouched between calls),
while the rest-pose positions persist in the node cache. -/
noncomputable def armFrameEvolution (armPos : Vec3) : Vec3 :=
  (armSolveShoulderStage ⟨mkArmNode 0 0, mkArmNode armPos ⟨1, 0, 0⟩⟩
    ⟨0, 5, 0⟩ ⟨0, 0, 1⟩ 1 (1 / 2) (1 / 2)).endNode.position

/-!
General-purpose lemmas about the embedded math.
-/

theorem Vec3.add_def (a b : Vec3) : a + b = ⟨a.x + b.x, a.y + b.y, a.z + b.z⟩ := rfl

theorem Vec3.sub_def (a b : Vec3) : a - b = ⟨a.x - b.x, a.y - b.y, a.z - b.z⟩ := rfl

theorem Vec3.smul_def (c : ℝ) (a : Vec3) : c • a = ⟨c * a.x, c * a.y, c * a.z⟩ := rfl

theorem Vec3.zero_def : (0 : Vec3) = ⟨0, 0, 0⟩ := rfl

theorem Vec3.normSq_nonneg (a : Vec3) : 0 ≤ a.normSq := by
  have hx := mul_self_nonneg a.x
  have hy := mul_self_nonneg a.y
  have hz := mul_self_nonneg a.z
  unfold Vec3.normSq; linarith

theorem Vec3.normSq_eq_zero_iff (a : Vec3) : a.normSq = 0 ↔ a = 0 := by
  constructor
  · intro h
    unfold Vec3.normSq at h
    have hx : a.x = 0 := by
      nlinarith [mul_self_nonneg a.x, mul_self_nonneg a.y, mul_self_nonneg a.z]
    have hy : a.y = 0 := by
      nlinarith [mul_self_nonneg a.x, mul_self_nonneg a.y, mul_self_nonneg a.z]
    have hz : a.z = 0 := by
      nlinarith [mul_self_nonneg a.x, mul_self_nonneg a.y, mul_self_nonneg a.z]
    ext <;> simp [hx, hy, hz, Vec3.zero_def]
  · intro h; subst h; simp [Vec3.normSq, Vec3.zero_def]

theorem Vec3.norm_nonneg (a : Vec3) : 0 ≤ a.norm := Real.sqrt_nonneg _

theorem Vec3.norm_eq_zero_iff (a : Vec3) : a.norm = 0 ↔ a = 0 := by
  rw [Vec3.norm, Real.sqrt_eq_zero (Vec3.normSq_nonneg a)]
  exact Vec3.normSq_eq_zero_iff a

theorem Vec3.normSq_smul (c : ℝ) (a : Vec3) : (c • a).normSq = c ^ 2 * a.normSq := by
  simp only [Vec3.smul_def, Vec3.normSq]; ring

theorem Vec3.norm_smul (c : ℝ) (a : Vec3) : (c • a).norm = |c| * a.norm := by
  rw [Vec3.norm, Vec3.norm, Vec3.normSq_smul, Real.sqrt_mul (sq_nonneg c),
    Real.sqrt_sq_eq_abs]

theorem Vec3.norm_sq_eq_normSq (a : Vec3) : a.norm ^ 2 = a.normSq :=
  Real.sq_sqrt (Vec3.normSq_nonneg a)

theorem Vec3.norm_normalize (a : Vec3) (h : a ≠ 0) : a.normalize.norm = 1 := by
  have hn : a.norm ≠ 0 := fun h0 => h ((Vec3.norm_eq_zero_iff a).mp h0)
  have hpos : 0 < a.norm := lt_of_le_of_ne (Vec3.norm_nonneg a) (Ne.symm hn)
  rw [Vec3.normalize, if_neg h, Vec3.norm_smul, abs_of_pos (by positivity)]
  field_simp

theorem Vec3.normSq_normalize (a : Vec3) (h : a ≠ 0) : a.normalize.normSq = 1 := by
  have := Vec3.norm_sq_eq_normSq a.normalize
  rw [Vec3.norm_normalize a h] at this
  linarith [this]

theorem Vec3.normalize_eq_zero_iff (a : Vec3) : a.normalize = 0 ↔ a = 0 := by
  constructor
  · intro h
    by_contra hne
    have := Vec3.norm_normalize a hne
    rw [h] at this
    simp [Vec3.norm, Vec3.normSq, Vec3.zero_def] at this
  · intro h; subst h; simp [Vec3.normalize]

/-- Lagrange identity for the cross product. -/
theorem Vec3.normSq_cross (a b : Vec3) :
    (Vec3.cross a b).normSq = a.normSq * b.normSq - (Vec3.dot a b) ^ 2 := by
  simp only [Vec3.cross, Vec3.normSq, Vec3.dot]; ring

theorem Vec3.cross_smul_left (c : ℝ) (a b : Vec3) :
    Vec3.cross (c • a) b = c • Vec3.cross a b := by
  simp only [Vec3.cross, Vec3.smul_def]; ext <;> ring

theorem Vec3.cross_smul_right (c : ℝ) (a b : Vec3) :
    Vec3.cross a (c • b) = c • Vec3.cross a b := by
  simp only [Vec3.cross, Vec3.smul_def]; ext <;> ring

theorem Vec3.smul_eq_zero_iff (c : ℝ) (a : Vec3) : c • a = 0 ↔ c = 0 ∨ a = 0 := by
  constructor
  · intro h
    rcases eq_or_ne c 0 with hc | hc
    · exact Or.inl hc
    · refine Or.inr ?_
      have hx : c * a.x = 0 := congrArg Vec3.x h
      have hy : c * a.y = 0 := congrArg Vec3.y h
      have hz : c * a.z = 0 := congrArg Vec3.z h
      ext
      · exact (mul_eq_zero.mp hx).resolve_left hc
      · exact (mul_eq_zero.mp hy).resolve_left hc
      · exact (mul_eq_zero.mp hz).resolve_left hc
  · rintro (h | h) <;> subst h <;> simp [Vec3.smul_def, Vec3.zero_def]

theorem Quat.rotate_zero (q : Quat) : q.rotate 0 = 0 := by
  simp only [Quat.rotate, Vec3.cross, Vec3.zero_def, Vec3.smul_def, Vec3.add_def]
  ext <;> simp

theorem Quat.one_mul (a : Quat) : Quat.one.mul a = a := by
  simp only [Quat.mul, Quat.one]; ext <;> ring

theorem Quat.mul_conj_self (a : Quat) (h : a.normSq = 1) : a.mul a.conj = Quat.one := by
  simp only [Quat.mul, Quat.conj, Quat.one]
  simp only [Quat.normSq] at h
  ext <;> simp <;> nlinarith [h]

/-- Rotation by a unit quaternion preserves the squared length. -/
theorem Quat.normSq_rotate (q : Quat) (v : Vec3) (h : q.normSq = 1) :
    (q.rotate v).normSq = v.normSq := by
  simp only [Quat.normSq] at h
  simp only [Quat.rotate, Quat.vec, Vec3.cross, Vec3.smul_def, Vec3.add_def, Vec3.normSq]
  linear_combination (4 * ((q.x * q.x + q.y * q.y + q.z * q.z) *
    (v.x * v.x + v.y * v.y + v.z * v.z) -
    (q.x * v.x + q.y * v.y + q.z * v.z) ^ 2)) * h

/-- Rotation by a unit quaternion of the form `⟨c, s • u⟩` with `u` a unit axis
is the Rodrigues rotation by the doubled angle. -/
theorem Quat.rotate_halfAngle (c s : ℝ) (u v : Vec3) (hu : u.normSq = 1)
    (hcs : c ^ 2 + s ^ 2 = 1) :
    Quat.rotate ⟨c, s * u.x, s * u.y, s * u.z⟩ v =
      ((c ^ 2 - s ^ 2) • v) + ((2 * c * s) • Vec3.cross u v) +
        ((2 * s ^ 2 * Vec3.dot u v) • u) := by
  simp only [Vec3.normSq] at hu
  simp only [Quat.rotate, Quat.vec, Vec3.cross, Vec3.smul_def, Vec3.add_def, Vec3.dot]
  ext
  · linear_combination (-2 * s ^ 2 * v.x) * hu + (-v.x) * hcs
  · linear_combination (-2 * s ^ 2 * v.y) * hu + (-v.y) * hcs
  · linear_combination (-2 * s ^ 2 * v.z) * hu + (-v.z) * hcs

theorem clamp_of_mem {x : ℝ} (h1 : -1 ≤ x) (h2 : x ≤ 1) : max (-1) (min 1 x) = x := by
  rw [min_eq_right h2, max_eq_right h1]

theorem deg_to_rad_cancel (x : ℝ) : x * (180 / π) * (π / 180) = x := by
  have hπ : π ≠ 0 := Real.pi_ne_zero
  field_simp

theorem cosDeg_acosDeg {x : ℝ} (h1 : -1 ≤ x) (h2 : x ≤ 1) : cosDeg (acosDeg x) = x := by
  rw [acosDeg, clamp_of_mem h1 h2, cosDeg, deg_to_rad_cancel, Real.cos_arccos h1 h2]

theorem sinDeg_acosDeg {x : ℝ} (h1 : -1 ≤ x) (h2 : x ≤ 1) :
    sinDeg (acosDeg x) = Real.sqrt (1 - x ^ 2) := by
  rw [acosDeg, clamp_of_mem h1 h2, sinDeg, deg_to_rad_cancel, Real.sin_arccos]

theorem sinDeg_ninety : sinDeg 90 = 1 := by
  rw [sinDeg, show (90 : ℝ) * (π / 180) = π / 2 by ring, Real.sin_pi_div_two]

theorem cosDeg_zero : cosDeg 0 = 1 := by
  rw [cosDeg, zero_mul, Real.cos_zero]

theorem cosDeg_one_eighty : cosDeg 180 = -1 := by
  rw [cosDeg, show (180 : ℝ) * (π / 180) = π by ring, Real.cos_pi]

theorem sinDeg_ninety_sub (y : ℝ) : sinDeg (90 - y) = cosDeg y := by
  rw [sinDeg, cosDeg, show (90 - y) * (π / 180) = π / 2 - y * (π / 180) by ring,
    Real.sin_pi_div_two_sub]

theorem cosDeg_asinDeg {x : ℝ} (h1 : -1 ≤ x) (h2 : x ≤ 1) :
    cosDeg (asinDeg x) = Real.sqrt (1 - x ^ 2) := by
  rw [asinDeg, clamp_of_mem h1 h2, cosDeg, deg_to_rad_cancel, Real.cos_arcsin]

theorem Vec3.sub_self (a : Vec3) : a - a = 0 := by
  simp only [Vec3.sub_def, Vec3.zero_def]; ext <;> simp

theorem Vec3.add_zero (a : Vec3) : a + 0 = a := by
  simp only [Vec3.add_def, Vec3.zero_def]; ext <;> simp

theorem Vec3.cross_zero_left (b : Vec3) : Vec3.cross 0 b = 0 := by
  simp only [Vec3.cross, Vec3.zero_def]; ext <;> simp

theorem Vec3.cross_zero_right (a : Vec3) : Vec3.cross a 0 = 0 := by
  simp only [Vec3.cross, Vec3.zero_def]; ext <;> simp

theorem Quat.rotate_one (v : Vec3) : Quat.one.rotate v = v := by
  simp only [Quat.rotate, Quat.one, Quat.vec, Vec3.cross, Vec3.smul_def, Vec3.add_def]
  ext <;> simp

theorem sqrt_eq_of_sq {x y : ℝ} (hy : 0 ≤ y) (h : y ^ 2 = x) : Real.sqrt x = y := by
  rw [← h, Real.sqrt_sq hy]

theorem sinDeg_sq_add_cosDeg_sq (x : ℝ) : sinDeg x ^ 2 + cosDeg x ^ 2 = 1 := by
  rw [sinDeg, cosDeg]; exact Real.sin_sq_add_cos_sq _

theorem cosDeg_double (x : ℝ) : cosDeg (x / 2) ^ 2 - sinDeg (x / 2) ^ 2 = cosDeg x := by
  rw [sinDeg, cosDeg, cosDeg, show x * (π / 180) = 2 * (x / 2 * (π / 180)) by ring,
    Real.cos_two_mul]
  have := Real.sin_sq_add_cos_sq (x / 2 * (π / 180))
  linarith

theorem sinDeg_double (x : ℝ) : 2 * sinDeg (x / 2) * cosDeg (x / 2) = sinDeg x := by
  rw [sinDeg, sinDeg, cosDeg, show x * (π / 180) = 2 * (x / 2 * (π / 180)) by ring,
    Real.sin_two_mul]

/-!
Claim C1 — ambiguous-triangle fallback.
-/

/-- C1: for side lengths `sideAB > 0`, `sideBC ≥ 0` and any heel angle, when
`sideBC * sin(angleACB) / sideAB > 1` the ambiguous-triangle solve returns no
solution, and `GetThighToHeelDistance` then returns exactly
`min(sideAB + sideBC, maxDistance)`; no error is surfaced (the function is
total and returns the fallback value). -/
theorem ambiguousTriangle_fallback (sideAB sideBC angleACB maxDistance : ℝ)
    (hab : 0 < sideAB) (hbc : 0 ≤ sideBC)
    (h : 1 < sideBC * sinDeg angleACB / sideAB) :
    SolveAmbiguousTriangle sideAB sideBC angleACB = none ∧
      GetThighToHeelDistance sideAB sideBC angleACB maxDistance =
        min (sideAB + sideBC) maxDistance := by
  have hnone : SolveAmbiguousTriangle sideAB sideBC angleACB = none := by
    rw [SolveAmbiguousTriangle, if_pos h]
  exact ⟨hnone, by rw [GetThighToHeelDistance, hnone]⟩

/-- C1 witness: concrete instance `sideAB = 1`, `sideBC = 2`, `angleACB = 90°`,
`maxDistance = 10`. -/
theorem ambiguousTriangle_fallback_witness :
    (0 : ℝ) < 1 ∧ (0 : ℝ) ≤ 2 ∧ 1 < 2 * sinDeg 90 / 1 ∧
      SolveAmbiguousTriangle 1 2 90 = none ∧
      GetThighToHeelDistance 1 2 90 10 = min (1 + 2) 10 := by
  have h : (1 : ℝ) < 2 * sinDeg 90 / 1 := by rw [sinDeg_ninety]; norm_num
  refine ⟨by norm_num, by norm_num, h, ?_, ?_⟩
  · exact (ambiguousTriangle_fallback 1 2 90 10 (by norm_num) (by norm_num) h).1
  · exact (ambiguousTriangle_fallback 1 2 90 10 (by norm_num) (by norm_num) h).2

/-!
Claim C7 — reach limits of `GetMaxDistance`.
-/

/-- C7: for non-negative segment lengths, `GetMaxDistance` at `180°` equals the
sum of the lengths and at `0°` equals the absolute difference of the lengths. -/
theorem getMaxDistance_extremes (a b : ℝ) (ha : 0 ≤ a) (hb : 0 ≤ b) :
    GetMaxDistance a b 180 = a + b ∧ GetMaxDistance a b 0 = |a - b| := by
  constructor
  · rw [GetMaxDistance, cosDeg_one_eighty,
      show a * a + b * b - 2 * a * b * (-1) = (a + b) ^ 2 by ring,
      Real.sqrt_sq (by linarith)]
  · rw [GetMaxDistance, cosDeg_zero,
      show a * a + b * b - 2 * a * b * 1 = (a - b) ^ 2 by ring,
      Real.sqrt_sq_eq_abs]

/-- C7 witness: concrete lengths `a = 3`, `b = 1`. -/
theorem getMaxDistance_extremes_witness :
    (0 : ℝ) ≤ 3 ∧ (0 : ℝ) ≤ 1 ∧ GetMaxDistance 3 1 180 = 3 + 1 ∧
      GetMaxDistance 3 1 0 = |(3 : ℝ) - 1| :=
  ⟨by norm_num, by norm_num,
    (getMaxDistance_extremes 3 1 (by norm_num) (by norm_num)).1,
    (getMaxDistance_extremes 3 1 (by norm_num) (by norm_num)).2⟩

/-!
Claim C10 — `GetThighToHeelDistance` never exceeds the supplied maximum.
-/

/-- C10: on both the valid-triangle branch and the no-solution fallback branch,
`GetThighToHeelDistance` returns a value bounded by `maxDistance`; hence the
heel target distance used by `CalculateFootDirectionStraight` never exceeds
`GetMaxDistance(legChain_, maxKneeAngle_)`, which it passes as `maxDistance`. -/
theorem getThighToHeelDistance_le_max (thighToToeDistance toeToHeelDistance
    heelAngle maxDistance : ℝ) :
    GetThighToHeelDistance thighToToeDistance toeToHeelDistance heelAngle maxDistance ≤
      maxDistance := by
  rw [GetThighToHeelDistance]
  cases SolveAmbiguousTriangle thighToToeDistance toeToHeelDistance heelAngle with
  | none => exact min_le_right _ _
  | some thighAngle => exact min_le_right _ _

/-!
Claim C2 — fail-fast initialization.
-/

theorem addSolverNodesLoop_false_iff (resolve : Nat → Option Nat) (names : List Nat)
    (st : SolverBaseState) (acc : List Nat) :
    (addSolverNodesLoop resolve names st acc).1 = false ↔
      ∃ b ∈ names, resolve b = none := by
  induction names generalizing st acc with
  | nil => simp [addSolverNodesLoop]
  | cons n rest ih =>
    cases h : resolve n with
    | none => simp [addSolverNodesLoop, h]
    | some v =>
      simp only [addSolverNodesLoop, h, ih, List.mem_cons]
      constructor
      · rintro ⟨b, hb, hres⟩; exact ⟨b, Or.inr hb, hres⟩
      · rintro ⟨b, hb | hb, hres⟩
        · subst hb; rw [h] at hres; cases hres
        · exact ⟨b, hb, hres⟩

theorem addSolverNodesLoop_false_chain (resolve : Nat → Option Nat) (names : List Nat)
    (st : SolverBaseState) (acc : List Nat)
    (h : (addSolverNodesLoop resolve names st acc).1 = false) :
    (addSolverNodesLoop resolve names st acc).2.chain = st.chain := by
  induction names generalizing st acc with
  | nil => simp [addSolverNodesLoop] at h
  | cons n rest ih =>
    cases hres : resolve n with
    | none => simp [addSolverNodesLoop, hres]
    | some v =>
      simp only [addSolverNodesLoop, hres] at h ⊢
      exact ih _ _ h

/-- C2: for every solver component type (all six `InitializeNodes`
implementations follow the target-then-bones shape of `initializeNodesGeneric`
with their respective name lists), `Initialize` returns failure if and only if
the target name or at least one bone name fails to resolve; and on failure the
component's chain is left untouched (no partial chain is installed — the chain
is built locally and moved into the component only after every name has
resolved). -/
theorem initialize_failfast (resolve : Nat → Option Nat) (targetName : Nat)
    (boneNames : List Nat) (st : SolverBaseState) :
    ((initializeComponent resolve targetName boneNames st).1 = false ↔
      (resolve targetName = none ∨ ∃ b ∈ boneNames, resolve b = none)) ∧
    ((initializeComponent resolve targetName boneNames st).1 = false →
      (initializeComponent resolve targetName boneNames st).2.chain = st.chain) := by
  unfold initializeComponent initializeNodesGeneric
  cases h : resolve targetName with
  | none => simp [h]
  | some v =>
    constructor
    · rw [addSolverNodesLoop_false_iff]
      simp [h]
    · intro hfail
      exact addSolverNodesLoop_false_chain resolve boneNames _ [] hfail

/-- C2 witness: a hierarchy resolving no name at all; initialization fails and
the previously installed chain `[5]` stays in place. -/
theorem initialize_failfast_witness :
    ((initializeComponent (fun _ => none) 0 [] ⟨[], [5]⟩).1 = false ↔
      ((fun _ : Nat => (none : Option Nat)) 0 = none ∨
        ∃ b ∈ ([] : List Nat), (fun _ : Nat => (none : Option Nat)) b = none)) ∧
    (initializeComponent (fun _ => none) 0 [] ⟨[], [5]⟩).2.chain = [5] :=
  ⟨(initialize_failfast (fun _ => none) 0 [] ⟨[], [5]⟩).1,
   (initialize_failfast (fun _ => none) 0 [] ⟨[], [5]⟩).2
     ((initialize_failfast (fun _ => none) 0 [] ⟨[], [5]⟩).1.mpr (Or.inl rfl))⟩

/-!
Claim C3 — dirty-flag-gated write-back.
-/

/-- C3: after one `Solve` call, for every owned node the world position is
written back to the scene exactly when its `positionDirty` flag is set after
`SolveInternal` (the pull stage cleared the flags, so a set flag means the flag
got set during `SolveInternal`), the world rotation exactly when its
`rotationDirty` flag is set, and a node whose flags both stayed clear keeps its
scene transform unchanged. -/
theorem solve_writeback_iff_dirty (solverNodes : List Nat)
    (solveInternal : (Nat → IKNode) → (Nat → IKNode))
    (scene : Nat → Transform) (cache : Nat → IKNode) (n : Nat)
    (hn : n ∈ solverNodes) :
    ((solveComponentCacheAfter solverNodes solveInternal scene cache n).positionDirty = true →
      ((solveComponent solverNodes solveInternal scene cache).1 n).position =
        (solveComponentCacheAfter solverNodes solveInternal scene cache n).position) ∧
    ((solveComponentCacheAfter solverNodes solveInternal scene cache n).positionDirty = false →
      ((solveComponent solverNodes solveInternal scene cache).1 n).position =
        (scene n).position) ∧
    ((solveComponentCacheAfter solverNodes solveInternal scene cache n).rotationDirty = true →
      ((solveComponent solverNodes solveInternal scene cache).1 n).rotation =
        (solveComponentCacheAfter solverNodes solveInternal scene cache n).rotation) ∧
    ((solveComponentCacheAfter solverNodes solveInternal scene cache n).rotationDirty = false →
      ((solveComponent solverNodes solveInternal scene cache).1 n).rotation =
        (scene n).rotation) ∧
    ((solveComponentCacheAfter solverNodes solveInternal scene cache n).positionDirty = false ∧
      (solveComponentCacheAfter solverNodes solveInternal scene cache n).rotationDirty = false →
      (solveComponent solverNodes solveInternal scene cache).1 n = scene n) := by
  simp only [solveComponent, solveComponentCacheAfter, if_pos hn]
  exact ⟨fun hp => by simp [hp], fun hp => by simp [hp], fun hr => by simp [hr],
    fun hr => by simp [hr], fun ⟨hp, hr⟩ => by simp [hp, hr]⟩

/-- C3 witness: a solver whose internal step changes nothing (the node cache is
returned as pulled, flags clear), on the single owned node `0`: the scene
transform of node `0` is unchanged by `Solve`. -/
theorem solve_writeback_iff_dirty_witness :
    (0 ∈ [0]) ∧
      (solveComponent [0] (fun c => c) (fun _ => ⟨0, Quat.one⟩)
        (fun _ => mkArmNode 0 0)).1 0 = (⟨0, Quat.one⟩ : Transform) :=
  ⟨by simp,
   (solve_writeback_iff_dirty [0] (fun c => c) (fun _ => ⟨0, Quat.one⟩)
      (fun _ => mkArmNode 0 0) 0 (by simp)).2.2.2.2 ⟨rfl, rfl⟩⟩

/-!
Claim C4 — the identity solver's copy semantics.
-/

/-- C4: every `IKIdentitySolver::SolveInternal` call sets the bone position to
the target's world position, the bone rotation to the target's world rotation
composed with the captured offset, and marks both attributes dirty; when the
captured offset is the zero-quaternion sentinel, the offset is first recomputed
from the component node's and the scene bone's current world rotations. -/
theorem identitySolve_copies_target (rotationOffset : Quat) (bone : IKNode)
    (targetPosition : Vec3) (targetRotation nodeWorldRotation : Quat)
    (boneWorldRotation : Option Quat) :
    (identitySolveInternal rotationOffset bone targetPosition targetRotation
        nodeWorldRotation boneWorldRotation).2.position = targetPosition ∧
    (identitySolveInternal rotationOffset bone targetPosition targetRotation
        nodeWorldRotation boneWorldRotation).2.positionDirty = true ∧
    (identitySolveInternal rotationOffset bone targetPosition targetRotation
        nodeWorldRotation boneWorldRotation).2.rotationDirty = true ∧
    (rotationOffset ≠ Quat.zero →
      (identitySolveInternal rotationOffset bone targetPosition targetRotation
        nodeWorldRotation boneWorldRotation).2.rotation =
          targetRotation.mul rotationOffset) ∧
    (∀ r, rotationOffset = Quat.zero → boneWorldRotation = some r →
      (identitySolveInternal rotationOffset bone targetPosition targetRotation
        nodeWorldRotation boneWorldRotation).2.rotation =
          targetRotation.mul ((Quat.inverse nodeWorldRotation).mul r)) := by
  refine ⟨rfl, rfl, rfl, fun hne => ?_, fun r hzero hbone => ?_⟩
  · simp [identitySolveInternal, ensureInitializedIdentity, if_neg hne,
      IKNode.markPositionDirty, IKNode.markRotationDirty]
  · subst hbone
    simp [identitySolveInternal, ensureInitializedIdentity, if_pos hzero,
      updateRotationOffset, IKNode.markPositionDirty, IKNode.markRotationDirty]

/-- C4 witness: concrete run through the zero-offset branch (offset sentinel
set, bone world rotation available): the solved rotation composes the
recomputed offset. -/
theorem identitySolve_copies_target_witness :
    (identitySolveInternal Quat.zero (mkArmNode 0 0) 0 Quat.one Quat.one
        (some Quat.one)).2.rotation =
      Quat.one.mul ((Quat.inverse Quat.one).mul Quat.one) :=
  (identitySolve_copies_target Quat.zero (mkArmNode 0 0) 0 Quat.one Quat.one
    (some Quat.one)).2.2.2.2 Quat.one rfl rfl

/-!
Claim C9 — `RotateShoulder` fixes the shoulder position.
-/

/-- C9: `IKArmSolver::RotateShoulder` leaves the shoulder (begin) node's
position unchanged for every rotation: the rest-pose reset plus the re-applied
positional offset restore its pre-call position, and the rotation pivots on
that very position; the rest-pose data of both nodes is untouched. -/
theorem rotateShoulder_fixes_begin_position (seg : IKSegmentNodes) (rotation : Quat) :
    (rotateShoulder seg rotation).beginNode.position = seg.beginNode.position ∧
    (rotateShoulder seg rotation).beginNode.originalPosition =
      seg.beginNode.originalPosition ∧
    (rotateShoulder seg rotation).beginNode.originalRotation =
      seg.beginNode.originalRotation ∧
    (rotateShoulder seg rotation).endNode.originalPosition =
      seg.endNode.originalPosition ∧
    (rotateShoulder seg rotation).endNode.originalRotation =
      seg.endNode.originalRotation := by
  refine ⟨?_, rfl, rfl, rfl, rfl⟩
  show seg.beginNode.position +
      rotation.rotate (seg.beginNode.originalPosition +
        (seg.beginNode.position - seg.beginNode.originalPosition) -
          seg.beginNode.position) = seg.beginNode.position
  have h0 : seg.beginNode.originalPosition +
      (seg.beginNode.position - seg.beginNode.originalPosition) -
        seg.beginNode.position = 0 := by
    simp only [Vec3.add_def, Vec3.sub_def, Vec3.zero_def]
    ext <;> simp
  rw [h0, Quat.rotate_zero, Vec3.add_zero]

/-!
Claim C5 — the arm solver's step 5 versus the trigonometric solver.
-/

theorem Vec3.norm_eval (v : Vec3) (n : ℝ) (hn : 0 ≤ n) (h : n ^ 2 = v.normSq) :
    v.norm = n := by
  rw [Vec3.norm]; exact sqrt_eq_of_sq hn h

theorem Vec3.normalize_eval (v : Vec3) (n : ℝ) (hn : v.norm = n) (h0 : n ≠ 0) :
    v.normalize = (1 / n) • v := by
  have hvne : v ≠ 0 := by
    intro h
    exact h0 (by rw [← hn, h, (Vec3.norm_eq_zero_iff 0).mpr rfl])
  rw [Vec3.normalize, if_neg hvne, hn]

theorem sqrt_sixty_four : Real.sqrt 64 = 8 := sqrt_eq_of_sq (by norm_num) (by norm_num)

theorem sqrt_four : Real.sqrt 4 = 2 := sqrt_eq_of_sq (by norm_num) (by norm_num)

/-- Evaluation of the two-bone solve on the begin-at-origin chain with lengths
`3`, `5` toward the target `(0,0,4)` with bend direction `(b,0,0)` for a unit
scalar `b` and default angle limits: the middle lands at `(3b,0,0)` and the
end at the target. -/
theorem specTrigSolvePositions_evalC5 (b : ℝ) (hb : b * b = 1) :
    specTrigSolvePositions 0 3 5 ⟨0, 0, 4⟩ ⟨b, 0, 0⟩ 0 180 =
      (⟨3 * b, 0, 0⟩, ⟨0, 0, 4⟩) := by
  have hbne : b ≠ 0 := by intro h; rw [h] at hb; norm_num at hb
  have hsub : (⟨0, 0, 4⟩ : Vec3) - 0 = ⟨0, 0, 4⟩ := by
    simp only [Vec3.sub_def, Vec3.zero_def]; norm_num
  have hnorm : (⟨0, 0, 4⟩ : Vec3).norm = 4 :=
    Vec3.norm_eval _ 4 (by norm_num) (by simp [Vec3.normSq]; norm_num)
  have hnormalize : (⟨0, 0, 4⟩ : Vec3).normalize = ⟨0, 0, 1⟩ := by
    rw [Vec3.normalize_eval _ 4 hnorm (by norm_num)]
    simp only [Vec3.smul_def]; norm_num
  have hbnorm : (⟨b, 0, 0⟩ : Vec3).norm = 1 :=
    Vec3.norm_eval _ 1 (by norm_num) (by simp [Vec3.normSq]; nlinarith [hb])
  have hbnormalize : (⟨b, 0, 0⟩ : Vec3).normalize = ⟨b, 0, 0⟩ := by
    rw [Vec3.normalize_eval _ 1 hbnorm (by norm_num)]
    simp only [Vec3.smul_def]; norm_num
  have hacos : acosDeg ((3 * 3 + 4 * 4 - 5 * 5) / (2 * 3 * 4)) = acosDeg 0 := by
    norm_num
  rw [specTrigSolvePositions]
  simp only [hsub, hnorm, hnormalize, cosDeg_one_eighty, cosDeg_zero]
  rw [show (3 * 3 + 5 * 5 - 2 * 3 * 5 * (-1) : ℝ) = 64 by norm_num,
    show (3 * 3 + 5 * 5 - 2 * 3 * 5 * 1 : ℝ) = 4 by norm_num,
    sqrt_sixty_four, sqrt_four,
    show min 8 (max 2 (4 : ℝ)) = 4 by norm_num]
  rw [show ((3 : ℝ) * 3 + 4 * 4 - 5 * 5) / (2 * 3 * 4) = 0 by norm_num]
  rw [cosDeg_acosDeg (by norm_num) (by norm_num),
    sinDeg_acosDeg (by norm_num) (by norm_num)]
  rw [show (1 : ℝ) - 0 ^ 2 = 1 by norm_num, Real.sqrt_one]
  have hdot : Vec3.dot ⟨b, 0, 0⟩ ⟨0, 0, 1⟩ = 0 := by simp [Vec3.dot]
  rw [hdot]
  have hperp : (⟨b, 0, 0⟩ : Vec3) - (0 : ℝ) • ⟨0, 0, 1⟩ = ⟨b, 0, 0⟩ := by
    simp only [Vec3.smul_def, Vec3.sub_def]; norm_num
  rw [hperp, hbnormalize]
  simp only [Vec3.smul_def, Vec3.add_def, Vec3.zero_def, Prod.mk.injEq]
  constructor <;> ext <;> norm_num

theorem rotate_zquat_xunit :
    Quat.rotate ⟨0, 0, 0, 1⟩ ⟨1, 0, 0⟩ = ⟨-1, 0, 0⟩ := by
  simp only [Quat.rotate, Quat.vec, Vec3.cross, Vec3.smul_def, Vec3.add_def]
  ext <;> norm_num

/-- C5 counterexample: with identical chain state (begin at the origin, lengths
`3` and `5`), the same target `(0,0,4)`, the same configured bend direction
`(1,0,0)` and the same angle limits `[0°,180°]`, under a component node world
rotation of `180°` about the z axis the arm solver's step 5 (which passes the
configured bend direction unrotated, source line 784) bends toward `(3,0,0)`
while the trigonometric solver (which passes the world-rotated direction,
source line 420) bends toward `(-3,0,0)`. -/
theorem armStepFive_ne_trigSolver :
    armSolveStepFive 0 3 5 ⟨0, 0, 4⟩ ⟨0, 0, 0, 1⟩ ⟨1, 0, 0⟩ 0 180 ≠
      trigSolverSolveInternal 0 3 5 ⟨0, 0, 4⟩ ⟨0, 0, 0, 1⟩ ⟨1, 0, 0⟩ 0 180 := by
  intro h
  rw [armSolveStepFive, trigSolverSolveInternal, rotate_zquat_xunit,
    specTrigSolvePositions_evalC5 1 (by norm_num),
    specTrigSolvePositions_evalC5 (-1) (by norm_num)] at h
  have := congrArg (fun p => p.1.x) h
  norm_num at this

/-- C5 (amended): the arm solver's final three-bone chain solve produces the
same transforms as the standalone trigonometric solver exactly when the
effective bend directions agree, i.e. when the component node's world rotation
maps the configured bend direction to itself (the arm solver passes the raw
configured vector, the trigonometric solver the world-rotated one). -/
theorem armStepFive_eq_trigSolver_of_fixed (beginPos : Vec3) (l1 l2 : ℝ)
    (targetPos : Vec3) (nodeWorldRotation : Quat) (bendDirection : Vec3)
    (minAngle maxAngle : ℝ)
    (h : nodeWorldRotation.rotate bendDirection = bendDirection) :
    armSolveStepFive beginPos l1 l2 targetPos nodeWorldRotation bendDirection
        minAngle maxAngle =
      trigSolverSolveInternal beginPos l1 l2 targetPos nodeWorldRotation
        bendDirection minAngle maxAngle := by
  rw [armSolveStepFive, trigSolverSolveInternal, h]

/-- C5 witness: at the identity world rotation the two solves agree. -/
theorem armStepFive_eq_trigSolver_witness :
    Quat.one.rotate ⟨1, 0, 0⟩ = ⟨1, 0, 0⟩ ∧
      armSolveStepFive 0 3 5 ⟨0, 0, 4⟩ Quat.one ⟨1, 0, 0⟩ 0 180 =
        trigSolverSolveInternal 0 3 5 ⟨0, 0, 4⟩ Quat.one ⟨1, 0, 0⟩ 0 180 :=
  ⟨Quat.rotate_one _,
   armStepFive_eq_trigSolver_of_fixed 0 3 5 ⟨0, 0, 4⟩ Quat.one ⟨1, 0, 0⟩ 0 180
     (Quat.rotate_one _)⟩

/-!
Claim C6 — the leg solver keeps the rest heel-to-toe distance.
-/

theorem quatFromAngleAxisRad_normSq (angle : ℝ) (axis : Vec3) (h : axis ≠ 0) :
    (quatFromAngleAxisRad angle axis).normSq = 1 := by
  have h1 := Vec3.normSq_normalize axis h
  simp only [Vec3.normSq] at h1
  simp only [quatFromAngleAxisRad, Quat.normSq]
  nlinarith [Real.sin_sq_add_cos_sq (angle / 2), h1]

theorem quatFromAngleAxisDeg_normSq (angle : ℝ) (axis : Vec3) (h : axis ≠ 0) :
    (quatFromAngleAxisDeg angle axis).normSq = 1 := by
  have h1 := Vec3.normSq_normalize axis h
  simp only [Vec3.normSq] at h1
  simp only [quatFromAngleAxisDeg, Quat.normSq]
  nlinarith [sinDeg_sq_add_cosDeg_sq (angle / 2), h1]

theorem fromRotationTo_vec_ne_zero (f t : Vec3) (h : Vec3.cross f t ≠ 0) :
    (fromRotationTo f t).vec ≠ 0 := by
  have hf : f ≠ 0 := fun h0 => h (by rw [h0, Vec3.cross_zero_left])
  have ht : t ≠ 0 := fun h0 => h (by rw [h0, Vec3.cross_zero_right])
  have hfn : f.norm ≠ 0 := fun h0 => hf ((Vec3.norm_eq_zero_iff f).mp h0)
  have htn : t.norm ≠ 0 := fun h0 => ht ((Vec3.norm_eq_zero_iff t).mp h0)
  have hcab : Vec3.cross f.normalize t.normalize =
      ((1 / f.norm) * (1 / t.norm)) • Vec3.cross f t := by
    rw [Vec3.normalize, if_neg hf, Vec3.normalize, if_neg ht,
      Vec3.cross_smul_left, Vec3.cross_smul_right]
    simp only [Vec3.smul_def]; ext <;> ring
  have hcab_ne : Vec3.cross f.normalize t.normalize ≠ 0 := by
    rw [hcab]
    intro h0
    rcases (Vec3.smul_eq_zero_iff _ _).mp h0 with h1 | h1
    · rcases mul_eq_zero.mp h1 with h2 | h2
      · exact hfn (by field_simp at h2)
      · exact htn (by field_simp at h2)
    · exact h h1
  have hd2 : (Vec3.dot f.normalize t.normalize) ^ 2 < 1 := by
    have hpos : 0 < (Vec3.cross f.normalize t.normalize).normSq := by
      rcases lt_or_eq_of_le (Vec3.normSq_nonneg (Vec3.cross f.normalize t.normalize)) with
        h1 | h1
      · exact h1
      · exact absurd ((Vec3.normSq_eq_zero_iff _).mp h1.symm) hcab_ne
    have hlag := Vec3.normSq_cross f.normalize t.normalize
    rw [Vec3.normSq_normalize f hf, Vec3.normSq_normalize t ht] at hlag
    nlinarith [hlag, hpos]
  have hdpos : 0 < (1 + Vec3.dot f.normalize t.normalize) * 2 := by nlinarith [hd2]
  have hs : Real.sqrt ((1 + Vec3.dot f.normalize t.normalize) * 2) ≠ 0 := by
    positivity
  intro h0
  apply hcab_ne
  have hx := congrArg Vec3.x h0
  have hy := congrArg Vec3.y h0
  have hz := congrArg Vec3.z h0
  simp only [fromRotationTo, Quat.vec, Vec3.zero_def] at hx hy hz
  ext
  · exact div_eq_zero_iff.mp hx |>.resolve_right hs
  · exact div_eq_zero_iff.mp hy |>.resolve_right hs
  · exact div_eq_zero_iff.mp hz |>.resolve_right hs

/-- Spherical interpolation of directions preserves the length of the first
argument whenever the two directions are not parallel. -/
theorem InterpolateDirection_norm (f t : Vec3) (w : ℝ) (h : Vec3.cross f t ≠ 0) :
    (InterpolateDirection f t w).norm = f.norm := by
  have hvec := fromRotationTo_vec_ne_zero f t h
  have hunit : (slerpIdentity (fromRotationTo f t) w).normSq = 1 := by
    rw [slerpIdentity]
    exact quatFromAngleAxisRad_normSq _ _ hvec
  rw [InterpolateDirection, Vec3.norm, Quat.normSq_rotate _ _ hunit, Vec3.norm]

theorem Vec3.smul_normalize_norm (L : ℝ) (u : Vec3) (hL : 0 ≤ L)
    (h : L • u.normalize ≠ 0) : (L • u.normalize).norm = L := by
  have hu : u.normalize ≠ 0 := by
    intro h0; exact h (by rw [h0, (Vec3.smul_eq_zero_iff L 0).mpr (Or.inr rfl)])
  have hune : u ≠ 0 := fun h0 => hu ((Vec3.normalize_eq_zero_iff u).mpr h0)
  rw [Vec3.norm_smul, Vec3.norm_normalize u hune, abs_of_nonneg hL, mul_one]

/-- C6: for every non-degenerate solve (the two candidate heel offsets are not
parallel) and every value of the blend weight and of the solved heel position
(`legChain_.Solve` is external to this property), the toe position written by
`IKLegSolver::SolveInternal` lies at distance exactly the foot segment's rest
length from the solved heel position: both candidate offsets are vectors of
that length and the spherical blend preserves it. -/
theorem legSolve_toe_heel_distance (thighPos toeTarget : Vec3)
    (footLen minHeelAngle l1 l2 minKnee maxKnee bendWeight : ℝ)
    (currentBendDir heelSolved : Vec3) (hL : 0 ≤ footLen)
    (hcross : Vec3.cross
      (calculateFootDirectionStraight thighPos toeTarget footLen minHeelAngle
        l1 l2 maxKnee currentBendDir)
      (calculateFootDirectionBent thighPos toeTarget footLen l1 l2
        currentBendDir minKnee maxKnee) ≠ 0) :
    (legToePosition heelSolved
        (legToeToHeelBlended thighPos toeTarget footLen minHeelAngle l1 l2
          minKnee maxKnee currentBendDir bendWeight) - heelSolved).norm =
      footLen := by
  have hs_ne : calculateFootDirectionStraight thighPos toeTarget footLen
      minHeelAngle l1 l2 maxKnee currentBendDir ≠ 0 := by
    intro h0; rw [h0, Vec3.cross_zero_left] at hcross; exact hcross rfl
  have hs_norm : (calculateFootDirectionStraight thighPos toeTarget footLen
      minHeelAngle l1 l2 maxKnee currentBendDir).norm = footLen :=
    Vec3.smul_normalize_norm footLen _ hL hs_ne
  have hblend : (legToeToHeelBlended thighPos toeTarget footLen minHeelAngle
      l1 l2 minKnee maxKnee currentBendDir bendWeight).norm =
        (calculateFootDirectionStraight thighPos toeTarget footLen minHeelAngle
          l1 l2 maxKnee currentBendDir).norm :=
    InterpolateDirection_norm _ _ bendWeight hcross
  have hneg : (legToePosition heelSolved
      (legToeToHeelBlended thighPos toeTarget footLen minHeelAngle l1 l2
        minKnee maxKnee currentBendDir bendWeight) - heelSolved).normSq =
      (legToeToHeelBlended thighPos toeTarget footLen minHeelAngle l1 l2
        minKnee maxKnee currentBendDir bendWeight).normSq := by
    simp only [legToePosition, Vec3.sub_def, Vec3.normSq]; ring
  rw [Vec3.norm, hneg, ← Vec3.norm, hblend, hs_norm]

theorem getThighToHeelEvalC6 : GetThighToHeelDistance 5 3 90 8 = 4 := by
  have hcond : ¬ (1 < 3 * sinDeg 90 / 5) := by rw [sinDeg_ninety]; norm_num
  have hsolve : SolveAmbiguousTriangle 5 3 90 = some (asinDeg (3 * sinDeg 90 / 5)) := by
    rw [SolveAmbiguousTriangle, if_neg hcond]
  rw [GetThighToHeelDistance, hsolve, sinDeg_ninety,
    show (3 : ℝ) * 1 / 5 = 3 / 5 by norm_num]
  show min (5 * sinDeg (180 - 90 - asinDeg (3 / 5)) / 1) 8 = 4
  rw [show (180 : ℝ) - 90 - asinDeg (3 / 5) = 90 - asinDeg (3 / 5) by ring,
    sinDeg_ninety_sub, cosDeg_asinDeg (by norm_num) (by norm_num),
    show (1 : ℝ) - (3 / 5) ^ 2 = (4 / 5) ^ 2 by norm_num,
    Real.sqrt_sq (by norm_num)]
  norm_num

theorem rotateQuatDegEvalC6 (angle : ℝ) :
    (quatFromAngleAxisDeg angle ⟨0, -5, 0⟩).rotate ⟨0, 0, 1⟩ =
      ⟨-sinDeg angle, 0, cosDeg angle⟩ := by
  have hn5 : (⟨0, -5, 0⟩ : Vec3).norm = 5 :=
    Vec3.norm_eval _ 5 (by norm_num) (by simp [Vec3.normSq]; norm_num)
  have hnormalize : (⟨0, -5, 0⟩ : Vec3).normalize = ⟨0, -1, 0⟩ := by
    rw [Vec3.normalize_eval _ 5 hn5 (by norm_num)]
    simp only [Vec3.smul_def]; ext <;> norm_num
  have hq : quatFromAngleAxisDeg angle ⟨0, -5, 0⟩ =
      ⟨cosDeg (angle / 2), sinDeg (angle / 2) * (⟨0, -1, 0⟩ : Vec3).x,
        sinDeg (angle / 2) * (⟨0, -1, 0⟩ : Vec3).y,
        sinDeg (angle / 2) * (⟨0, -1, 0⟩ : Vec3).z⟩ := by
    rw [quatFromAngleAxisDeg, hnormalize]
  rw [hq, Quat.rotate_halfAngle (cosDeg (angle / 2)) (sinDeg (angle / 2))
    ⟨0, -1, 0⟩ ⟨0, 0, 1⟩ (by simp [Vec3.normSq])
    (by have := sinDeg_sq_add_cosDeg_sq (angle / 2); linarith)]
  have hcross : Vec3.cross ⟨0, -1, 0⟩ ⟨0, 0, 1⟩ = ⟨-1, 0, 0⟩ := by
    simp only [Vec3.cross]; ext <;> norm_num
  have hdot : Vec3.dot ⟨0, -1, 0⟩ ⟨0, 0, 1⟩ = 0 := by simp [Vec3.dot]
  have h1 : cosDeg (angle / 2) ^ 2 - sinDeg (angle / 2) ^ 2 = cosDeg angle :=
    cosDeg_double angle
  have h2 : 2 * cosDeg (angle / 2) * sinDeg (angle / 2) = sinDeg angle := by
    rw [← sinDeg_double angle]; ring
  rw [hcross, hdot, h1, h2]
  simp only [Vec3.smul_def, Vec3.add_def]
  ext <;> norm_num

theorem legStraightEvalC6 :
    calculateFootDirectionStraight 0 ⟨0, 0, -5⟩ 3 90 5 3 180 ⟨1, 0, 0⟩ =
      ⟨-(12 / 5), 0, 9 / 5⟩ := by
  have hthigh2toe : (⟨0, 0, -5⟩ : Vec3) - 0 = ⟨0, 0, -5⟩ := by
    simp only [Vec3.sub_def, Vec3.zero_def]; ext <;> norm_num
  have hbn : Vec3.cross ⟨0, 0, -5⟩ ⟨1, 0, 0⟩ = ⟨0, -5, 0⟩ := by
    simp only [Vec3.cross]; ext <;> norm_num
  have hmax : GetMaxDistance 5 3 180 = 8 := by
    rw [GetMaxDistance, cosDeg_one_eighty,
      show (5 * 5 + 3 * 3 - 2 * 5 * 3 * (-1) : ℝ) = 64 by norm_num, sqrt_sixty_four]
  have hnorm5 : (⟨0, 0, -5⟩ : Vec3).norm = 5 :=
    Vec3.norm_eval _ 5 (by norm_num) (by simp [Vec3.normSq]; norm_num)
  have hGT : GetTriangleAngle 5 3 4 = acosDeg (3 / 5) := by
    rw [GetTriangleAngle, show ((5 * 5 + 3 * 3 - 4 * 4) / (2 * 5 * 3) : ℝ) = 3 / 5 by norm_num]
  have hzerosub : (0 : Vec3) - ⟨0, 0, -5⟩ = ⟨0, 0, 5⟩ := by
    simp only [Vec3.sub_def, Vec3.zero_def]; ext <;> norm_num
  have hnormz : (⟨0, 0, 5⟩ : Vec3).normalize = ⟨0, 0, 1⟩ := by
    rw [Vec3.normalize_eval _ 5
      (Vec3.norm_eval _ 5 (by norm_num) (by simp [Vec3.normSq]; norm_num)) (by norm_num)]
    simp only [Vec3.smul_def]; ext <;> norm_num
  have hrot : (quatFromAngleAxisDeg (acosDeg (3 / 5)) ⟨0, -5, 0⟩).rotate ⟨0, 0, 1⟩ =
      ⟨-(4 / 5), 0, 3 / 5⟩ := by
    rw [rotateQuatDegEvalC6, cosDeg_acosDeg (by norm_num) (by norm_num),
      sinDeg_acosDeg (by norm_num) (by norm_num),
      show (1 : ℝ) - (3 / 5) ^ 2 = (4 / 5) ^ 2 by norm_num, Real.sqrt_sq (by norm_num)]
  have hnormr : (⟨-(4 / 5), 0, 3 / 5⟩ : Vec3).normalize = ⟨-(4 / 5), 0, 3 / 5⟩ := by
    rw [Vec3.normalize_eval _ 1
      (Vec3.norm_eval _ 1 (by norm_num) (by simp [Vec3.normSq]; norm_num)) (by norm_num)]
    simp only [Vec3.smul_def]; ext <;> norm_num
  simp only [calculateFootDirectionStraight, GetToeToHeel, hthigh2toe, hbn, hmax,
    hnorm5, getThighToHeelEvalC6, hGT, hzerosub, hnormz, hrot, hnormr]
  simp only [Vec3.smul_def]; ext <;> norm_num

theorem sqrt_one_twenty_one : Real.sqrt 121 = 11 :=
  sqrt_eq_of_sq (by norm_num) (by norm_num)

theorem specTrigEvalC6 :
    specTrigSolvePositions 0 5 (3 + 3) ⟨0, 0, -5⟩ ⟨1, 0, 0⟩ 0 180 =
      (⟨24 / 5, 0, -(7 / 5)⟩, ⟨0, 0, -5⟩) := by
  have hsub : (⟨0, 0, -5⟩ : Vec3) - 0 = ⟨0, 0, -5⟩ := by
    simp only [Vec3.sub_def, Vec3.zero_def]; ext <;> norm_num
  have hnorm : (⟨0, 0, -5⟩ : Vec3).norm = 5 :=
    Vec3.norm_eval _ 5 (by norm_num) (by simp [Vec3.normSq]; norm_num)
  have hnormalize : (⟨0, 0, -5⟩ : Vec3).normalize = ⟨0, 0, -1⟩ := by
    rw [Vec3.normalize_eval _ 5 hnorm (by norm_num)]
    simp only [Vec3.smul_def]; ext <;> norm_num
  have hxnormalize : (⟨1, 0, 0⟩ : Vec3).normalize = ⟨1, 0, 0⟩ := by
    rw [Vec3.normalize_eval _ 1
      (Vec3.norm_eval _ 1 (by norm_num) (by simp [Vec3.normSq])) (by norm_num)]
    simp only [Vec3.smul_def]; ext <;> norm_num
  rw [specTrigSolvePositions]
  simp only [hsub, hnorm, hnormalize, cosDeg_one_eighty, cosDeg_zero]
  rw [show (5 * 5 + (3 + 3) * (3 + 3) - 2 * 5 * (3 + 3) * (-1) : ℝ) = 121 by norm_num,
    show (5 * 5 + (3 + 3) * (3 + 3) - 2 * 5 * (3 + 3) * 1 : ℝ) = 1 by norm_num,
    sqrt_one_twenty_one, Real.sqrt_one,
    show min 11 (max 1 (5 : ℝ)) = 5 by norm_num,
    show ((5 : ℝ) * 5 + 5 * 5 - (3 + 3) * (3 + 3)) / (2 * 5 * 5) = 7 / 25 by norm_num,
    cosDeg_acosDeg (by norm_num) (by norm_num),
    sinDeg_acosDeg (by norm_num) (by norm_num),
    show (1 : ℝ) - (7 / 25) ^ 2 = (24 / 25) ^ 2 by norm_num,
    Real.sqrt_sq (by norm_num)]
  have hdot : Vec3.dot ⟨1, 0, 0⟩ ⟨0, 0, -1⟩ = 0 := by simp [Vec3.dot]
  rw [hdot]
  have hperp : (⟨1, 0, 0⟩ : Vec3) - (0 : ℝ) • ⟨0, 0, -1⟩ = ⟨1, 0, 0⟩ := by
    simp only [Vec3.smul_def, Vec3.sub_def]; ext <;> norm_num
  rw [hperp, hxnormalize]
  simp only [Vec3.smul_def, Vec3.add_def, Vec3.zero_def, Prod.mk.injEq]
  constructor <;> ext <;> norm_num

theorem legBentEvalC6 :
    calculateFootDirectionBent 0 ⟨0, 0, -5⟩ 3 5 3 ⟨1, 0, 0⟩ 0 180 =
      ⟨12 / 5, 0, 9 / 5⟩ := by
  have hdiff : (⟨24 / 5, 0, -(7 / 5)⟩ : Vec3) - ⟨0, 0, -5⟩ = ⟨24 / 5, 0, 18 / 5⟩ := by
    simp only [Vec3.sub_def]; ext <;> norm_num
  have hnorm6 : (⟨24 / 5, 0, 18 / 5⟩ : Vec3).norm = 6 :=
    Vec3.norm_eval _ 6 (by norm_num) (by simp [Vec3.normSq]; norm_num)
  have hnormalize : (⟨24 / 5, 0, 18 / 5⟩ : Vec3).normalize = ⟨4 / 5, 0, 3 / 5⟩ := by
    rw [Vec3.normalize_eval _ 6 hnorm6 (by norm_num)]
    simp only [Vec3.smul_def]; ext <;> norm_num
  simp only [calculateFootDirectionBent, specTrigEvalC6, hdiff, hnormalize]
  simp only [Vec3.smul_def]; ext <;> norm_num

/-- C6 witness: a concrete non-degenerate leg solve (thigh at the origin, toe
target at `(0,0,-5)`, foot length `3`, min heel angle `90°`, leg lengths `5`
and `3`, knee limits `[0°,180°]`, bend weight `1/2`): the straight candidate is
`(-12/5, 0, 9/5)`, the bent candidate `(12/5, 0, 9/5)`, they are not parallel,
and the solved toe sits at distance `3` from the heel. -/
theorem legSolve_toe_heel_distance_witness :
    (0 : ℝ) ≤ 3 ∧
    Vec3.cross
      (calculateFootDirectionStraight 0 ⟨0, 0, -5⟩ 3 90 5 3 180 ⟨1, 0, 0⟩)
      (calculateFootDirectionBent 0 ⟨0, 0, -5⟩ 3 5 3 ⟨1, 0, 0⟩ 0 180) ≠ 0 ∧
    (legToePosition 0
        (legToeToHeelBlended 0 ⟨0, 0, -5⟩ 3 90 5 3 0 180 ⟨1, 0, 0⟩ (1 / 2)) -
      0).norm = 3 := by
  have hcross : Vec3.cross
      (calculateFootDirectionStraight 0 ⟨0, 0, -5⟩ 3 90 5 3 180 ⟨1, 0, 0⟩)
      (calculateFootDirectionBent 0 ⟨0, 0, -5⟩ 3 5 3 ⟨1, 0, 0⟩ 0 180) ≠ 0 := by
    rw [legStraightEvalC6, legBentEvalC6]
    intro h0
    have := congrArg Vec3.y h0
    simp only [Vec3.cross, Vec3.zero_def] at this
    norm_num at this
  exact ⟨by norm_num, hcross,
    legSolve_toe_heel_distance 0 ⟨0, 0, -5⟩ 3 90 5 3 0 180 (1 / 2) ⟨1, 0, 0⟩ 0
      (by norm_num) hcross⟩

/-!
Claim C8 — idempotence of `Solve`.
-/

theorem Quat.normalize_of_unit (q : Quat) (h : q.normSq = 1) : q.normalize = q := by
  rw [Quat.normalize, if_neg (by rw [h]; norm_num), h, Real.sqrt_one]
  simp [Quat.smul]

theorem Vec3.zero_add (a : Vec3) : 0 + a = a := by
  simp only [Vec3.add_def, Vec3.zero_def]; ext <;> simp

theorem slerpIdentity_one (t : ℝ) : slerpIdentity Quat.one t = Quat.one := by
  rw [slerpIdentity, quatFromAngleAxisRad,
    show t * (2 * Real.arccos (Quat.one.w)) / 2 = t * Real.arccos 1 from by
      rw [Quat.one]; ring,
    Real.arccos_one, mul_zero, Real.cos_zero, Real.sin_zero]
  ext <;> simp [Quat.one]

theorem toSwingTwist_zrot (c s : ℝ) (h : c * c + s * s = 1) :
    toSwingTwist ⟨c, 0, 0, s⟩ ⟨0, 0, 1⟩ = (Quat.one, ⟨c, 0, 0, s⟩) := by
  have hnq : (⟨c, 0, 0, s⟩ : Quat).normSq = 1 := by simp [Quat.normSq]; nlinarith [h]
  rw [toSwingTwist]
  have hdotq : Vec3.dot (Quat.vec ⟨c, 0, 0, s⟩) ⟨0, 0, 1⟩ = s := by
    simp [Quat.vec, Vec3.dot]
  simp only [hdotq]
  have hinner : (⟨(⟨c, 0, 0, s⟩ : Quat).w, s * (⟨0, 0, 1⟩ : Vec3).x,
      s * (⟨0, 0, 1⟩ : Vec3).y, s * (⟨0, 0, 1⟩ : Vec3).z⟩ : Quat) = ⟨c, 0, 0, s⟩ := by
    ext <;> norm_num
  rw [hinner, Quat.normalize_of_unit _ hnq, Quat.mul_conj_self _ hnq]

theorem slerpIdentity_zrot_half (u : ℝ) (h0 : 0 < u) (h1 : u ≤ π / 4) :
    slerpIdentity ⟨Real.cos u, 0, 0, Real.sin u⟩ (1 / 2) =
      ⟨Real.cos (u / 2), 0, 0, Real.sin (u / 2)⟩ := by
  have hpi := Real.pi_pos
  have hsinu_pos : 0 < Real.sin u := Real.sin_pos_of_pos_of_lt_pi h0 (by linarith)
  rw [slerpIdentity,
    show (⟨Real.cos u, 0, 0, Real.sin u⟩ : Quat).w = Real.cos u from rfl,
    Real.arccos_cos h0.le (by linarith),
    show (⟨Real.cos u, 0, 0, Real.sin u⟩ : Quat).vec = ⟨0, 0, Real.sin u⟩ from rfl,
    quatFromAngleAxisRad,
    show (1 / 2 : ℝ) * (2 * u) / 2 = u / 2 by ring]
  have hnormalize_axis : (⟨0, 0, Real.sin u⟩ : Vec3).normalize = ⟨0, 0, 1⟩ := by
    rw [Vec3.normalize_eval _ (Real.sin u)
      (Vec3.norm_eval _ (Real.sin u) hsinu_pos.le (by simp [Vec3.normSq]; ring))
      hsinu_pos.ne']
    simp only [Vec3.smul_def]
    ext <;> field_simp
  rw [hnormalize_axis]
  ext <;> simp

theorem rotate_zrot_xunit (c s : ℝ) (h : c ^ 2 + s ^ 2 = 1) :
    (⟨c, 0, 0, s⟩ : Quat).rotate ⟨1, 0, 0⟩ =
      ⟨c ^ 2 - s ^ 2, 2 * c * s, 0⟩ := by
  have hform : (⟨c, 0, 0, s⟩ : Quat) =
      ⟨c, s * (⟨0, 0, 1⟩ : Vec3).x, s * (⟨0, 0, 1⟩ : Vec3).y,
        s * (⟨0, 0, 1⟩ : Vec3).z⟩ := by
    ext <;> norm_num
  rw [hform, Quat.rotate_halfAngle c s ⟨0, 0, 1⟩ ⟨1, 0, 0⟩ (by simp [Vec3.normSq]) h]
  have hcross : Vec3.cross ⟨0, 0, 1⟩ ⟨1, 0, 0⟩ = ⟨0, 1, 0⟩ := by
    simp only [Vec3.cross]; ext <;> norm_num
  have hdot : Vec3.dot ⟨0, 0, 1⟩ ⟨1, 0, 0⟩ = 0 := by simp [Vec3.dot]
  rw [hcross, hdot]
  simp only [Vec3.smul_def, Vec3.add_def]
  ext <;> ring

theorem fromRotationTo_eval_arm (t : ℝ) (h0 : 0 ≤ t) (h1 : t < π / 2) :
    fromRotationTo ⟨Real.cos t, Real.sin t, 0⟩ ⟨0, 1, 0⟩ =
      ⟨Real.cos (π / 4 - t / 2), 0, 0, Real.sin (π / 4 - t / 2)⟩ := by
  have hpi := Real.pi_pos
  have hupos : 0 < π / 4 - t / 2 := by linarith
  have hcosu_pos : 0 < Real.cos (π / 4 - t / 2) :=
    Real.cos_pos_of_mem_Ioo ⟨by linarith, by linarith⟩
  have hA_norm : (⟨Real.cos t, Real.sin t, 0⟩ : Vec3).norm = 1 :=
    Vec3.norm_eval _ 1 (by norm_num)
      (by simp [Vec3.normSq]; nlinarith [Real.sin_sq_add_cos_sq t])
  have hA_normalize : (⟨Real.cos t, Real.sin t, 0⟩ : Vec3).normalize =
      ⟨Real.cos t, Real.sin t, 0⟩ := by
    rw [Vec3.normalize_eval _ 1 hA_norm (by norm_num)]
    simp only [Vec3.smul_def]; ext <;> norm_num
  have hY_normalize : (⟨0, 1, 0⟩ : Vec3).normalize = ⟨0, 1, 0⟩ := by
    rw [Vec3.normalize_eval _ 1
      (Vec3.norm_eval _ 1 (by norm_num) (by simp [Vec3.normSq])) (by norm_num)]
    simp only [Vec3.smul_def]; ext <;> norm_num
  have hdot : Vec3.dot ⟨Real.cos t, Real.sin t, 0⟩ ⟨0, 1, 0⟩ = Real.sin t := by
    simp [Vec3.dot]
  have hcross : Vec3.cross ⟨Real.cos t, Real.sin t, 0⟩ ⟨0, 1, 0⟩ =
      ⟨0, 0, Real.cos t⟩ := by
    simp only [Vec3.cross]; ext <;> ring
  have hcos2u : Real.cos (2 * (π / 4 - t / 2)) = Real.sin t := by
    rw [show 2 * (π / 4 - t / 2) = π / 2 - t by ring, Real.cos_pi_div_two_sub]
  have hsin2u : Real.sin (2 * (π / 4 - t / 2)) = Real.cos t := by
    rw [show 2 * (π / 4 - t / 2) = π / 2 - t by ring, Real.sin_pi_div_two_sub]
  have hs0 : Real.sqrt ((1 + Real.sin t) * 2) = 2 * Real.cos (π / 4 - t / 2) := by
    apply sqrt_eq_of_sq (by positivity)
    have hsq := Real.cos_sq (π / 4 - t / 2)
    rw [hcos2u] at hsq
    nlinarith [hsq]
  have hz : Real.cos t / (2 * Real.cos (π / 4 - t / 2)) =
      Real.sin (π / 4 - t / 2) := by
    rw [← hsin2u, Real.sin_two_mul,
      show 2 * Real.sin (π / 4 - t / 2) * Real.cos (π / 4 - t / 2) =
        Real.sin (π / 4 - t / 2) * (2 * Real.cos (π / 4 - t / 2)) by ring,
      mul_div_assoc, div_self (by positivity), mul_one]
  rw [fromRotationTo, hA_normalize, hY_normalize, hdot, hcross, hs0]
  ext
  · show 2 * Real.cos (π / 4 - t / 2) / 2 = Real.cos (π / 4 - t / 2); ring
  · show (0 : ℝ) / (2 * Real.cos (π / 4 - t / 2)) = 0; simp
  · show (0 : ℝ) / (2 * Real.cos (π / 4 - t / 2)) = 0; simp
  · exact hz

theorem Vec3.sub_zero (a : Vec3) : a - 0 = a := by
  simp only [Vec3.sub_def, Vec3.zero_def]; ext <;> simp

theorem reNormalized_eval_target : reNormalized ⟨0, 5, 0⟩ 1 1 = ⟨0, 1, 0⟩ := by
  have hnorm : (⟨0, 5, 0⟩ : Vec3).norm = 5 :=
    Vec3.norm_eval _ 5 (by norm_num) (by simp [Vec3.normSq]; norm_num)
  have hnormalize : (⟨0, 5, 0⟩ : Vec3).normalize = ⟨0, 1, 0⟩ := by
    rw [Vec3.normalize_eval _ 5 hnorm (by norm_num)]
    simp only [Vec3.smul_def]; ext <;> norm_num
  rw [reNormalized, hnorm, hnormalize, show min 1 (max 1 (5 : ℝ)) = 1 by norm_num]
  simp only [Vec3.smul_def]; ext <;> norm_num

theorem armFrameEvolution_eval (t : ℝ) (h0 : 0 ≤ t) (h1 : t < π / 2) :
    armFrameEvolution ⟨Real.cos t, Real.sin t, 0⟩ =
      ⟨Real.cos (π / 4 - t / 2), Real.sin (π / 4 - t / 2), 0⟩ := by
  have hpi := Real.pi_pos
  have hupos : 0 < π / 4 - t / 2 := by linarith
  have hule : π / 4 - t / 2 ≤ π / 4 := by linarith
  have hmaxrot : calculateMaxShoulderRotation
      ⟨mkArmNode 0 0, mkArmNode ⟨Real.cos t, Real.sin t, 0⟩ ⟨1, 0, 0⟩⟩ ⟨0, 5, 0⟩ 1 =
      ⟨Real.cos (π / 4 - t / 2), 0, 0, Real.sin (π / 4 - t / 2)⟩ := by
    simp only [calculateMaxShoulderRotation, mkArmNode, Vec3.sub_zero, Vec3.zero_add]
    rw [reNormalized_eval_target]
    exact fromRotationTo_eval_arm t h0 h1
  have hst := toSwingTwist_zrot (Real.cos (π / 4 - t / 2)) (Real.sin (π / 4 - t / 2))
    (by nlinarith [Real.sin_sq_add_cos_sq (π / 4 - t / 2)])
  have hslerp2 := slerpIdentity_zrot_half (π / 4 - t / 2) hupos hule
  have hend : ∀ rot : Quat,
      (rotateShoulder ⟨mkArmNode 0 0, mkArmNode ⟨Real.cos t, Real.sin t, 0⟩ ⟨1, 0, 0⟩⟩
        rot).endNode.position = rot.rotate ⟨1, 0, 0⟩ := by
    intro rot
    simp only [rotateShoulder, mkArmNode, IKNode.resetOriginalTransform,
      IKNode.rotateAround]
    rw [Vec3.sub_self, Vec3.add_zero, Vec3.sub_zero, Vec3.zero_add]
  have hrot := rotate_zrot_xunit (Real.cos ((π / 4 - t / 2) / 2))
    (Real.sin ((π / 4 - t / 2) / 2))
    (by nlinarith [Real.sin_sq_add_cos_sq ((π / 4 - t / 2) / 2)])
  have hda1 : Real.cos ((π / 4 - t / 2) / 2) ^ 2 - Real.sin ((π / 4 - t / 2) / 2) ^ 2 =
      Real.cos (π / 4 - t / 2) := by
    have h := Real.cos_two_mul' ((π / 4 - t / 2) / 2)
    rw [show 2 * ((π / 4 - t / 2) / 2) = π / 4 - t / 2 by ring] at h
    linarith
  have hda2 : 2 * Real.cos ((π / 4 - t / 2) / 2) * Real.sin ((π / 4 - t / 2) / 2) =
      Real.sin (π / 4 - t / 2) := by
    have h := Real.sin_two_mul ((π / 4 - t / 2) / 2)
    rw [show 2 * ((π / 4 - t / 2) / 2) = π / 4 - t / 2 by ring] at h
    linarith
  rw [armFrameEvolution, armSolveShoulderStage, hmaxrot, hst]
  rw [show (Quat.one, (⟨Real.cos (π / 4 - t / 2), 0, 0,
      Real.sin (π / 4 - t / 2)⟩ : Quat)).1 = Quat.one from rfl,
    show (Quat.one, (⟨Real.cos (π / 4 - t / 2), 0, 0,
      Real.sin (π / 4 - t / 2)⟩ : Quat)).2 =
        ⟨Real.cos (π / 4 - t / 2), 0, 0, Real.sin (π / 4 - t / 2)⟩ from rfl,
    slerpIdentity_one, hslerp2, Quat.one_mul, hend, hrot]
  ext
  · exact hda1
  · exact hda2
  · rfl

/-- C8 counterexample: the arm solver is not idempotent.  With the shoulder
resting at the origin, the arm bone resting at `(1,0,0)`, shoulder segment
length `1`, hand target `(0,5,0)`, up direction `(0,0,1)` and both shoulder
weights `1/2`, the first `Solve` moves the arm bone to direction `45°`, but the
second `Solve` — with the scene, the target and all parameters unchanged —
moves it to direction `22.5°`, because `CalculateMaxShoulderRotation` reads the
nodes' current (written-back) positions rather than their rest positions, even
though `previousPosition`/`previousRotation` are not used on this path. -/
theorem armSolve_not_idempotent :
    armFrameEvolution (armFrameEvolution ⟨1, 0, 0⟩) ≠ armFrameEvolution ⟨1, 0, 0⟩ := by
  have hpi := Real.pi_pos
  have hx : (⟨1, 0, 0⟩ : Vec3) = ⟨Real.cos 0, Real.sin 0, 0⟩ := by
    rw [Real.cos_zero, Real.sin_zero]
  have h1 : armFrameEvolution ⟨1, 0, 0⟩ =
      ⟨Real.cos (π / 4), Real.sin (π / 4), 0⟩ := by
    rw [hx, armFrameEvolution_eval 0 le_rfl (by linarith),
      show π / 4 - (0 : ℝ) / 2 = π / 4 by ring]
  have h2 : armFrameEvolution ⟨Real.cos (π / 4), Real.sin (π / 4), 0⟩ =
      ⟨Real.cos (π / 8), Real.sin (π / 8), 0⟩ := by
    rw [armFrameEvolution_eval (π / 4) (by positivity) (by linarith),
      show π / 4 - π / 4 / 2 = π / 8 by ring]
  rw [h1, h2]
  intro h
  have hxcomp : Real.cos (π / 8) = Real.cos (π / 4) := congrArg Vec3.x h
  have hlt : Real.cos (π / 4) < Real.cos (π / 8) :=
    Real.cos_lt_cos_of_nonneg_of_le_pi (by positivity) (by linarith) (by linarith)
  linarith

/-- C8 (amended): the `Solve` wrapper itself re-pulls the scene and re-derives
everything from it, so a solver whose internal step depends only on the target
and the rest pose is idempotent — proved here for the identity solver: a second
`Solve` with unchanged target, scene and parameters reproduces the first call's
offset and transform, provided the offset after the first call is not the zero
sentinel.  The Arm solver violates the claim as stated (see the
counterexample), because its shoulder rotation is computed from the current
shoulder-to-arm direction. -/
theorem identitySolve_idempotent (rotationOffset : Quat)
    (boneScene targetScene : Transform) (nodeWorldRotation : Quat)
    (h : (identitySolveOnScene rotationOffset boneScene targetScene
      nodeWorldRotation).1 ≠ Quat.zero) :
    identitySolveOnScene
        (identitySolveOnScene rotationOffset boneScene targetScene nodeWorldRotation).1
        (identitySolveOnScene rotationOffset boneScene targetScene nodeWorldRotation).2
        targetScene nodeWorldRotation =
      identitySolveOnScene rotationOffset boneScene targetScene nodeWorldRotation := by
  have key : (identitySolveOnScene
      (identitySolveOnScene rotationOffset boneScene targetScene nodeWorldRotation).1
      (identitySolveOnScene rotationOffset boneScene targetScene nodeWorldRotation).2
      targetScene nodeWorldRotation).1 =
      (identitySolveOnScene rotationOffset boneScene targetScene nodeWorldRotation).1 := by
    show ensureInitializedIdentity nodeWorldRotation
        (some (identitySolveOnScene rotationOffset boneScene targetScene
          nodeWorldRotation).2.rotation)
        (identitySolveOnScene rotationOffset boneScene targetScene nodeWorldRotation).1 =
      (identitySolveOnScene rotationOffset boneScene targetScene nodeWorldRotation).1
    rw [ensureInitializedIdentity, if_neg h]
  refine Prod.ext key ?_
  exact congrArg
    (fun q => (⟨targetScene.position, targetScene.rotation.mul q⟩ : Transform)) key

/-- C8 witness: concrete identity-solver idempotence run with a nonzero
offset. -/
theorem identitySolve_idempotent_witness :
    (identitySolveOnScene Quat.one ⟨0, Quat.one⟩ ⟨0, Quat.one⟩ Quat.one).1 ≠
        Quat.zero ∧
      identitySolveOnScene
          (identitySolveOnScene Quat.one ⟨0, Quat.one⟩ ⟨0, Quat.one⟩ Quat.one).1
          (identitySolveOnScene Quat.one ⟨0, Quat.one⟩ ⟨0, Quat.one⟩ Quat.one).2
          ⟨0, Quat.one⟩ Quat.one =
        identitySolveOnScene Quat.one ⟨0, Quat.one⟩ ⟨0, Quat.one⟩ Quat.one := by
  have h10 : Quat.one ≠ Quat.zero := by
    intro h
    have := congrArg Quat.w h
    simp [Quat.one, Quat.zero] at this
  have hne : (identitySolveOnScene Quat.one ⟨0, Quat.one⟩ ⟨0, Quat.one⟩ Quat.one).1 ≠
      Quat.zero := by
    show ensureInitializedIdentity Quat.one (some Quat.one) Quat.one ≠ Quat.zero
    rw [ensureInitializedIdentity, if_neg h10]
    exact h10
  exact ⟨hne, identitySolve_idempotent Quat.one ⟨0, Quat.one⟩ ⟨0, Quat.one⟩ Quat.one hne⟩
